import Mathlib

/-!
Verification of the living-doc-toolkit normalization pipeline.

This file gives a shallow embedding of the pipeline's core modules:

* `living_doc_core/markdown_utils.py` and
  `living_doc_service_normalize_issues/normalizer.py` (section normalization),
* `living_doc_adapter_collector_gh/compatibility.py`, `detector.py`,
  `parser.py` and `models.py` (the collector-gh adapter),
* `living_doc_service_normalize_issues/builder.py` together with the
  `living_doc_datasets_pdf` pydantic models (document and audit assembly),
* `living_doc_core/json_utils.py` and `errors.py` (read stage and taxonomy),

and proves the spec's claims about them.  Python `dict`s are modelled as
association lists with insert-or-overwrite-in-place semantics, machine
strings as Lean `String`, and fallible constructors as `Except`.
-/

set_option maxRecDepth 10000

/-! ## Python string primitives -/

/-- Python whitespace (`str.strip`, regex `\s`), restricted to the ASCII
whitespace characters; the unicode spaces Python additionally treats as
whitespace do not occur in any input considered here. -/
def isPySpace (c : Char) : Bool :=
  c = ' ' || c = '\t' || c = '\n' || c = '\r' || c = '\x0b' || c = '\x0c'

/-- Python `str.rstrip()`. -/
def pyRstrip (s : String) : String :=
  String.mk ((s.toList.reverse.dropWhile isPySpace).reverse)

/-- Python `str.strip()`. -/
def pyStrip (s : String) : String :=
  String.mk (((s.toList.dropWhile isPySpace).reverse.dropWhile isPySpace).reverse)

/-- Python `str.lower()`, for the ASCII letters that occur in headings and
version strings. -/
def pyLower (s : String) : String :=
  String.mk (s.toList.map Char.toLower)

/-- A single-quote character as a string (used by Python `repr` of `str`). -/
def sqS : String := String.mk ['\x27']

/-! ## Python dict model

A Python `dict` preserves first-insertion order; assigning to an existing
key overwrites the value but keeps the key's position.  We model a dict as
an association list with exactly that update rule. -/

/-- `d[k] = v` on a Python dict: overwrite in place, else append. -/
def dset {α : Type} : List (String × α) → String → α → List (String × α)
  | [], k, v => [(k, v)]
  | (k', v') :: rest, k, v =>
      if k' = k then (k', v) :: rest else (k', v') :: dset rest k v

/-- `d.get(k)` / `k in d` on a Python dict. -/
def dget {α : Type} : List (String × α) → String → Option α
  | [], _ => none
  | (k', v) :: rest, k => if k' = k then some v else dget rest k

/-! ## PEP 440 version model

`compatibility.py` compares versions with `packaging.version.Version`,
which implements PEP 440 (not semver).  The following parser and ordering
model that external library: the grammar is the library's
`VERSION_PATTERN` (case-insensitive, surrounding whitespace allowed,
optional `v` prefix, optional epoch `N!`, release `N(.N)*`, optional
pre-release with letters a/b/c/rc/alpha/beta/pre/preview, optional post
release, optional dev release, optional `+local`), and the ordering is the
library's `_cmpkey`. -/

/-- One segment of a PEP 440 local version: numeric segments compare above
alphanumeric ones. -/
inductive LocalSeg
  | num (n : Nat)
  | str (s : String)
deriving DecidableEq, Repr

/-- A parsed PEP 440 version, normalized as `packaging` normalizes it
(pre-release letters reduced to `a`/`b`/`rc`, implicit numbers zero). -/
structure PyVersion where
  epoch : Nat
  release : List Nat
  pre : Option (String × Nat)
  post : Option Nat
  dev : Option Nat
  localSegs : Option (List LocalSeg)
deriving DecidableEq, Repr

def isAsciiDigit (c : Char) : Bool := '0' ≤ c && c ≤ '9'

def isAsciiLower (c : Char) : Bool := 'a' ≤ c && c ≤ 'z'

def isSepChar (c : Char) : Bool := c = '-' || c = '_' || c = '.'

def digitsToNat (ds : List Char) : Nat :=
  ds.foldl (fun n c => n * 10 + (c.toNat - 48)) 0

def takeDigits (cs : List Char) : List Char × List Char :=
  (cs.takeWhile isAsciiDigit, cs.dropWhile isAsciiDigit)

/-- Further `.N` components of the release segment (greedy, like the
regex; a dot not followed by digits is left unconsumed). -/
def moreRelease : Nat → List Char → List Nat × List Char
  | 0, cs => ([], cs)
  | fuel + 1, cs =>
      match cs with
      | '.' :: rest =>
          let (ds, rest') := takeDigits rest
          if ds.isEmpty then ([], cs)
          else
            let (tl, rest'') := moreRelease fuel rest'
            (digitsToNat ds :: tl, rest'')
      | _ => ([], cs)

/-- All ways the regex fragment `[-_\.]? WORD [-_\.]? ([0-9]+)?` can match
a prefix of `cs` for one of the allowed words, in the regex's backtracking
order (separator and digits consumed greedily first). -/
def letterNumCands (words : List String) (cs : List Char) : List (String × Nat × List Char) :=
  let branches : List (List Char) :=
    match cs with
    | c :: rest => if isSepChar c then [rest] else [cs]
    | [] => [cs]
  branches.flatMap (fun cs1 =>
    words.flatMap (fun w =>
      if w.toList.isPrefixOf cs1 then
        let base := cs1.drop w.toList.length
        match base with
        | c :: r =>
            if isSepChar c then
              let (ds, r2) := takeDigits r
              (if ds.isEmpty then [] else [(w, digitsToNat ds, r2)]) ++ [(w, 0, r), (w, 0, base)]
            else
              let (ds, r2) := takeDigits base
              (if ds.isEmpty then [] else [(w, digitsToNat ds, r2)]) ++ [(w, 0, base)]
        | [] => [(w, 0, [])]
      else []))

/-- `packaging`'s `_parse_letter_version` normalization of pre-release
letters. -/
def normPreLetter (w : String) : String :=
  if w = "alpha" then "a"
  else if w = "beta" then "b"
  else if w = "c" || w = "pre" || w = "preview" then "rc"
  else w

/-- Candidate matches of the pre-release group, regex alternation order,
with "no pre-release" last. -/
def preCands (cs : List Char) : List (Option (String × Nat) × List Char) :=
  (letterNumCands ["alpha", "a", "b", "c", "rc", "beta", "pre", "preview"] cs).map
      (fun (w, n, r) => (some (normPreLetter w, n), r))
    ++ [(none, cs)]

/-- Candidate matches of the post-release group: the implicit `-N` form
first, then the lettered forms, then "no post release". -/
def postCands (cs : List Char) : List (Option Nat × List Char) :=
  (match cs with
   | '-' :: r =>
       let (ds, r2) := takeDigits r
       if ds.isEmpty then [] else [(some (digitsToNat ds), r2)]
   | _ => [])
    ++ (letterNumCands ["post", "rev", "r"] cs).map (fun (_, n, r) => (some n, r))
    ++ [(none, cs)]

/-- Candidate matches of the dev-release group. -/
def devCands (cs : List Char) : List (Option Nat × List Char) :=
  (letterNumCands ["dev"] cs).map (fun (_, n, r) => (some n, r)) ++ [(none, cs)]

/-- Split a local-version body on `[-_.]`, producing normalized segments;
fails on an empty or malformed segment list. -/
def parseLocalSegs : Nat → List Char → Option (List LocalSeg)
  | 0, _ => none
  | _, [] => none
  | fuel + 1, cs =>
      let (seg, rest) := (cs.takeWhile (fun c => isAsciiLower c || isAsciiDigit c),
                          cs.dropWhile (fun c => isAsciiLower c || isAsciiDigit c))
      if seg.isEmpty then none
      else
        let s : LocalSeg :=
          if seg.all isAsciiDigit then .num (digitsToNat seg) else .str (String.mk seg)
        match rest with
        | [] => some [s]
        | c :: r =>
            if isSepChar c then (parseLocalSegs fuel r).map (fun tl => s :: tl)
            else none

/-- Match the optional `+local` suffix against the entire remainder. -/
def finishLocal (cs : List Char) : Option (Option (List LocalSeg)) :=
  match cs with
  | [] => some none
  | '+' :: rest => (parseLocalSegs (rest.length + 1) rest).map some
  | _ => none

/-- Core of the PEP 440 parser, on a lowercased, whitespace-stripped
character list. -/
def pep440ParseCore (cs0 : List Char) : Option PyVersion :=
  let cs1 := match cs0 with
    | 'v' :: r => r
    | _ => cs0
  let (ed, r) := takeDigits cs1
  let (epoch, cs2) :=
    match r with
    | '!' :: r2 => if ed.isEmpty then (0, cs1) else (digitsToNat ed, r2)
    | _ => (0, cs1)
  let (rd, cs3) := takeDigits cs2
  if rd.isEmpty then none
  else
    let (more, cs4) := moreRelease cs3.length cs3
    let release := digitsToNat rd :: more
    (preCands cs4).findSome? (fun pc =>
      (postCands pc.2).findSome? (fun qc =>
        (devCands qc.2).findSome? (fun dc =>
          (finishLocal dc.2).map (fun lsegs =>
            { epoch := epoch, release := release, pre := pc.1,
              post := qc.1, dev := dc.1, localSegs := lsegs }))))

/-- Models `packaging.version.Version(s)`: `none` models the
`InvalidVersion` exception. -/
def pep440Parse (s : String) : Option PyVersion :=
  pep440ParseCore ((pyStrip s).toList.map Char.toLower)

/-! ### PEP 440 ordering (`packaging`'s `_cmpkey`) -/

/-- Python-tuple lexicographic comparison on `List Nat`. -/
def cmpNatList : List Nat → List Nat → Ordering
  | [], [] => .eq
  | [], _ :: _ => .lt
  | _ :: _, [] => .gt
  | a :: as', b :: bs' =>
      (compare a b).then (cmpNatList as' bs')

/-- Release key: trailing zeros removed before comparison. -/
def releaseKey (r : List Nat) : List Nat :=
  (r.reverse.dropWhile (· = 0)).reverse

/-- Rank of a normalized pre-release letter; on `a < b < rc` this agrees
with the string comparison `packaging` performs. -/
def preLetterRank (w : String) : Nat :=
  if w = "a" then 0 else if w = "b" then 1 else 2

/-- Compare the pre-release components, including `packaging`'s special
keys: no pre and no post but a dev release sorts below everything, a
plain release sorts above every pre-release. -/
def cmpPre (a b : PyVersion) : Ordering :=
  let key : PyVersion → Option (Option (Nat × Nat)) := fun v =>
    match v.pre with
    | some (w, n) => some (some (preLetterRank w, n))
    | none =>
        if v.post.isNone && v.dev.isSome then none
        else some none
  match key a, key b with
  | none, none => .eq
  | none, _ => .lt
  | _, none => .gt
  | some none, some none => .eq
  | some none, some (some _) => .gt
  | some (some _), some none => .lt
  | some (some (ra, na)), some (some (rb, nb)) =>
      (compare ra rb).then (compare na nb)

def cmpOptNatNegInf : Option Nat → Option Nat → Ordering
  | none, none => .eq
  | none, some _ => .lt
  | some _, none => .gt
  | some a, some b => compare a b

def cmpOptNatInf : Option Nat → Option Nat → Ordering
  | none, none => .eq
  | none, some _ => .gt
  | some _, none => .lt
  | some a, some b => compare a b

/-- One local segment: string segments sort below numeric ones. -/
def cmpLocalSeg : LocalSeg → LocalSeg → Ordering
  | .num a, .num b => compare a b
  | .num _, .str _ => .gt
  | .str _, .num _ => .lt
  | .str a, .str b => compare a b

def cmpLocalList : List LocalSeg → List LocalSeg → Ordering
  | [], [] => .eq
  | [], _ :: _ => .lt
  | _ :: _, [] => .gt
  | a :: as', b :: bs' => (cmpLocalSeg a b).then (cmpLocalList as' bs')

def cmpLocal : Option (List LocalSeg) → Option (List LocalSeg) → Ordering
  | none, none => .eq
  | none, some _ => .lt
  | some _, none => .gt
  | some a, some b => cmpLocalList a b

/-- `packaging`'s total order on parsed versions. -/
def cmpVersion (a b : PyVersion) : Ordering :=
  (compare a.epoch b.epoch).then <|
    (cmpNatList (releaseKey a.release) (releaseKey b.release)).then <|
      (cmpPre a b).then <|
        (cmpOptNatNegInf a.post b.post).then <|
          (cmpOptNatInf a.dev b.dev).then <|
            cmpLocal a.localSegs b.localSegs

def pvLe (a b : PyVersion) : Bool := cmpVersion a b ≠ .gt

def pvLt (a b : PyVersion) : Bool := cmpVersion a b = .lt

/-! ## `compatibility.py` -/

/-- `models.CompatibilityWarning`. -/
structure CompatibilityWarning where
  code : String
  message : String
  context : Option String
deriving DecidableEq, Repr

def CONFIRMED_MIN : String := "1.0.0"

def CONFIRMED_MAX : String := "2.0.0"

/-- Fallback used to totalize the parses of the in-range constants; never
reached (see `pep440Parse_min`, `pep440Parse_max`). -/
def pvDefault : PyVersion := ⟨0, [], none, none, none, none⟩

/-- `compatibility.check_compatibility`. -/
def check_compatibility (version : String) : List CompatibilityWarning :=
  match pep440Parse version with
  | some parsed_version =>
      let min_version := (pep440Parse CONFIRMED_MIN).getD pvDefault
      let max_version := (pep440Parse CONFIRMED_MAX).getD pvDefault
      if pvLe min_version parsed_version && pvLt parsed_version max_version then []
      else
        [{ code := "VERSION_MISMATCH",
           message := "Producer version " ++ version ++ " is outside confirmed range >="
             ++ CONFIRMED_MIN ++ ",<" ++ CONFIRMED_MAX,
           context := some "metadata.generator.version" }]
  | none =>
      [{ code := "INVALID_VERSION",
         message := "Producer version " ++ sqS ++ version ++ sqS
           ++ " is not a valid semantic version",
         context := some "metadata.generator.version" }]

/-! ## Semantic-versioning model (from the spec's words)

The spec describes `check_compatibility` in terms of *semantic versioning*
("pre-release and build-metadata suffixes are accepted and compared per
semantic-versioning precedence rules").  To compare that description with
the code (which uses PEP 440 via `packaging`), the following definitions
formalize semver 2.0.0 from the spec's words, independent of the source. -/

/-- A semver pre-release identifier: numeric identifiers compare below
alphanumeric ones. -/
inductive SemVerId
  | num (n : Nat)
  | anum (s : String)
deriving DecidableEq, Repr

/-- A parsed semantic version; build metadata is dropped because semver
precedence ignores it. -/
structure SemVer where
  major : Nat
  minor : Nat
  patch : Nat
  pre : List SemVerId
deriving DecidableEq, Repr

def isSemVerIdChar (c : Char) : Bool :=
  isAsciiDigit c || isAsciiLower c || ('A' ≤ c && c ≤ 'Z') || c = '-'

/-- A semver numeric field: nonempty digits, no leading zero. -/
def svNumOk (ds : List Char) : Bool :=
  !ds.isEmpty && (ds.length = 1 || ds.head? ≠ some '0')

/-- Split a character list on `.` (fuelled). -/
def splitOnDot : Nat → List Char → List (List Char)
  | 0, _ => []
  | fuel + 1, cs =>
      let (seg, rest) := (cs.takeWhile (· ≠ '.'), cs.dropWhile (· ≠ '.'))
      match rest with
      | [] => [seg]
      | _ :: r => seg :: splitOnDot fuel r

/-- One dot-separated pre-release identifier per the semver grammar. -/
def parseSemVerId (seg : List Char) : Option SemVerId :=
  if seg.isEmpty then none
  else if seg.all isAsciiDigit then
    if svNumOk seg then some (.num (digitsToNat seg)) else none
  else if seg.all isSemVerIdChar then some (.anum (String.mk seg))
  else none

def parseSemVerIds (segs : List (List Char)) : Option (List SemVerId) :=
  segs.foldr (fun seg acc =>
    match parseSemVerId seg, acc with
    | some v, some tl => some (v :: tl)
    | _, _ => none) (some [])

/-- A semver build-metadata identifier: nonempty, alphanumeric or hyphen. -/
def buildIdOk (seg : List Char) : Bool :=
  !seg.isEmpty && seg.all isSemVerIdChar

/-- Parse a full semantic version `MAJOR.MINOR.PATCH[-pre][+build]` per the
semver 2.0.0 grammar, as the spec's words prescribe. -/
def specSemverParse (s : String) : Option SemVer :=
  let cs := s.toList
  let (body, buildPart) := (cs.takeWhile (· ≠ '+'), cs.dropWhile (· ≠ '+'))
  let buildOk :=
    match buildPart with
    | [] => true
    | _ :: b => (splitOnDot (b.length + 1) b).all buildIdOk
  if !buildOk then none
  else
    let (core, preBody) := (body.takeWhile (· ≠ '-'), body.dropWhile (· ≠ '-'))
    match splitOnDot (core.length + 1) core with
    | [ma, mi, pa] =>
        if svNumOk ma && svNumOk mi && svNumOk pa then
          match preBody with
          | [] => some ⟨digitsToNat ma, digitsToNat mi, digitsToNat pa, []⟩
          | _ :: p =>
              (parseSemVerIds (splitOnDot (p.length + 1) p)).map
                (fun ids => if ids.isEmpty then none else
                  some (⟨digitsToNat ma, digitsToNat mi, digitsToNat pa, ids⟩ : SemVer)) |>.join
        else none
    | _ => none

/-- Semver precedence on pre-release identifiers. -/
def cmpSemVerId : SemVerId → SemVerId → Ordering
  | .num a, .num b => compare a b
  | .num _, .anum _ => .lt
  | .anum _, .num _ => .gt
  | .anum a, .anum b => compare a b

/-- Semver precedence on pre-release identifier lists: compared
left-to-right, a shorter list that is a prefix of the longer one sorts
first. -/
def cmpSemVerIds : List SemVerId → List SemVerId → Ordering
  | [], [] => .eq
  | [], _ :: _ => .lt
  | _ :: _, [] => .gt
  | a :: as', b :: bs' => (cmpSemVerId a b).then (cmpSemVerIds as' bs')

/-- Semver precedence: numeric core, then "a pre-release version has lower
precedence than the associated normal version". -/
def cmpSemVer (a b : SemVer) : Ordering :=
  (compare a.major b.major).then <|
    (compare a.minor b.minor).then <|
      (compare a.patch b.patch).then <|
        match a.pre, b.pre with
        | [], [] => .eq
        | [], _ :: _ => .gt
        | _ :: _, [] => .lt
        | x, y => cmpSemVerIds x y

def svLe (a b : SemVer) : Bool := cmpSemVer a b ≠ .gt

def svLt (a b : SemVer) : Bool := cmpSemVer a b = .lt

/-- `1.0.0 ≤ v < 2.0.0` under semver precedence. -/
def semverInRange (v : SemVer) : Bool :=
  svLe ⟨1, 0, 0, []⟩ v && svLt v ⟨2, 0, 0, []⟩

/-! ## `markdown_utils.py` -/

/-- Character at index `i` of a text. -/
def charAt (cs : List Char) (i : Nat) : Option Char :=
  (cs.drop i).head?

/-- Index of the first `'\n'` at or after `i` (or the text length): the end
of the line containing `i`. -/
def lineEndFrom (cs : List Char) (i : Nat) : Nat :=
  i + ((cs.drop i).takeWhile (· ≠ '\n')).length

/-- Length of the maximal whitespace run starting at `j`. -/
def wsRunLen (cs : List Char) (j : Nat) : Nat :=
  ((cs.drop j).takeWhile isPySpace).length

/-- Largest `w' ≤ w`, `w' ≥ 1`, such that position `j + w'` holds a
non-newline character: how much of the whitespace run `\s+` keeps after
backtracking so that `(.+)` can match. -/
def pickW (cs : List Char) (j : Nat) : Nat → Option Nat
  | 0 => none
  | w' + 1 =>
      match charAt cs (j + (w' + 1)) with
      | some c => if c ≠ '\n' then some (w' + 1) else pickW cs j w'
      | none => pickW cs j w'

/-- Try the regex `#{2}\s+(.+)$` at position `i` (which the caller ensures
is a line start).  Returns the match end and the text of group 1. -/
def tryMatchAt (cs : List Char) (i : Nat) : Option (Nat × String) :=
  match charAt cs i, charAt cs (i + 1) with
  | some '#', some '#' =>
      let j := i + 2
      match pickW cs j (wsRunLen cs j) with
      | some w' =>
          let q := j + w'
          let e := lineEndFrom cs q
          some (e, String.mk ((cs.drop q).take (e - q)))
      | none => none
  | _, _ => none

/-- `re.finditer` over the text: scan left to right, try the pattern at
every line start, resume after each match's end. -/
def scanMatches (cs : List Char) : Nat → Nat → List (Nat × Nat × String)
  | 0, _ => []
  | fuel + 1, p =>
      if p ≥ cs.length then []
      else
        let atLineStart := p = 0 || charAt cs (p - 1) = some '\n'
        if atLineStart then
          match tryMatchAt cs p with
          | some (e, g) => (p, e, g) :: scanMatches cs fuel (max e (p + 1))
          | none => scanMatches cs fuel (p + 1)
        else scanMatches cs fuel (p + 1)

/-- The per-heading loop of `split_by_headings`: each heading's content
runs to the next match's start (or the end of text), with a newline right
after the heading line skipped and the content right-stripped. -/
def buildSections (cs : List Char) : List (Nat × Nat × String) → List (String × String) →
    List (String × String)
  | [], acc => acc
  | (_, e, g) :: rest, acc =>
      let cstart := match charAt cs e with
        | some '\n' => e + 1
        | _ => e
      let cend := match rest with
        | (s2, _, _) :: _ => s2
        | [] => cs.length
      let content := pyRstrip (String.mk ((cs.drop cstart).take (cend - cstart)))
      buildSections cs rest (dset acc (pyStrip g) content)

/-- `markdown_utils.split_by_headings` at `level=2` (the only level the
normalizer uses). -/
def split_by_headings (markdown_text : String) : List (String × String) :=
  if markdown_text = "" then [("", "")]
  else
    let cs := markdown_text.toList
    match scanMatches cs (cs.length + 1) 0 with
    | [] => [("", markdown_text)]
    | (s0, e0, g0) :: ms =>
        let init : List (String × String) :=
          if s0 > 0 then [("", pyRstrip (String.mk (cs.take s0)))] else []
        buildSections cs ((s0, e0, g0) :: ms) init

/-- `markdown_utils.normalize_heading`. -/
def normalize_heading (text : String) : String :=
  pyLower (pyStrip text)

/-! ## `normalizer.py` -/

/-- `HEADING_SYNONYMS` (verbatim from the source). -/
def HEADING_SYNONYMS : List (String × List String) :=
  [("description", ["description", "overview", "summary"]),
   ("business_value", ["business value", "value", "why"]),
   ("preconditions", ["preconditions", "prerequisites", "setup"]),
   ("acceptance_criteria", ["acceptance criteria", "ac", "done criteria"]),
   ("user_guide", ["user guide", "how to", "instructions"]),
   ("connections", ["connections", "related", "links"]),
   ("last_edited", ["last edited", "history", "changes"])]

/-- The reverse lookup dict the function builds from `HEADING_SYNONYMS`
(no synonym occurs twice, so plain concatenation is the dict). -/
def synonym_to_canonical : List (String × String) :=
  HEADING_SYNONYMS.flatMap (fun p => p.2.map (fun s => (s, p.1)))

/-- State of the normalization loop: the last description-synonym content
seen, the accumulated description parts, and the result dict. -/
structure NormState where
  known : Option String
  parts : List String
  result : List (String × String)

/-- One iteration of the `for heading, content in sections_raw.items()`
loop in `normalize_sections`. -/
def normStep (st : NormState) (hc : String × String) : NormState :=
  let heading := hc.1
  let content := hc.2
  if heading = "" then st
  else
    let normalized := normalize_heading heading
    match dget synonym_to_canonical normalized with
    | some canonical =>
        if content ≠ "" && pyStrip content ≠ "" then
          if canonical = "description" then { st with known := some (pyStrip content) }
          else { st with result := dset st.result canonical (pyStrip content) }
        else st
    | none =>
        if content ≠ "" && pyStrip content ≠ "" then
          { st with parts := st.parts ++ ["### " ++ heading ++ "\n" ++ pyStrip content] }
        else st

/-- `normalizer.normalize_sections`.  The returned dict maps canonical
section names to markdown content (`none` models Python `None`). -/
def normalize_sections (markdown : String) : List (String × Option String) :=
  if markdown = "" then [("description", none)]
  else
    let sections_raw := split_by_headings markdown
    let preParts : List String :=
      match dget sections_raw "" with
      | some c => if c ≠ "" then [pyStrip c] else []
      | none => []
    let st := sections_raw.foldl normStep { known := none, parts := preParts, result := [] }
    let finalParts : List String :=
      (match st.known with
       | some k => [k]
       | none => []) ++ st.parts
    let result : List (String × Option String) := st.result.map (fun p => (p.1, some p.2))
    let result :=
      if !finalParts.isEmpty then
        dset result "description" (some (String.intercalate "\n\n" finalParts))
      else result
    if result.isEmpty then [("description", none)] else result

/-! ## Python JSON-value model and dynamic lookups

The adapter receives the raw payload as an untyped parsed-JSON value; the
model below supplies the Python dynamic operations (`[]`, `.get`,
truthiness, `str()`) the detector and parser use, with Python's exception
behavior made explicit. -/

inductive JVal
  | null
  | b (v : Bool)
  | i (n : Int)
  | s (v : String)
  | arr (xs : List JVal)
  | obj (fields : List (String × JVal))

mutual

def jvalBeq : JVal → JVal → Bool
  | .null, .null => true
  | .b a, .b c => a == c
  | .i a, .i c => a == c
  | .s a, .s c => a == c
  | .arr a, .arr c => jvalListBeq a c
  | .obj a, .obj c => jvalFieldsBeq a c
  | _, _ => false

def jvalListBeq : List JVal → List JVal → Bool
  | [], [] => true
  | x :: xs, y :: ys => jvalBeq x y && jvalListBeq xs ys
  | _, _ => false

def jvalFieldsBeq : List (String × JVal) → List (String × JVal) → Bool
  | [], [] => true
  | (k1, v1) :: xs, (k2, v2) :: ys => k1 == k2 && jvalBeq v1 v2 && jvalFieldsBeq xs ys
  | _, _ => false

end

instance : BEq JVal := ⟨jvalBeq⟩

/-- Python exceptions the embedded code can raise or catch.  Message texts
of the host runtime are abbreviated to representative constants: no claim
depends on them. -/
inductive PyExc
  | keyError (k : String)
  | typeError (msg : String)
  | attributeError (msg : String)
  | validationError (msg : String)
deriving DecidableEq, Repr

/-- Python `str(e)` for an exception (a `KeyError` renders as the quoted
key). -/
def excStr : PyExc → String
  | .keyError k => sqS ++ k ++ sqS
  | .typeError m => m
  | .attributeError m => m
  | .validationError m => m

/-- Python `v[k]` for a string key. -/
def pySubscript (v : JVal) (k : String) : Except PyExc JVal :=
  match v with
  | .obj fs =>
      match dget fs k with
      | some x => .ok x
      | none => .error (.keyError k)
  | .s _ => .error (.typeError "string indices must be integers")
  | .arr _ => .error (.typeError "list indices must be integers, not str")
  | _ => .error (.typeError "object is not subscriptable")

/-- Python `v.get(k, dflt)`: only dicts have `.get`. -/
def pyGet (v : JVal) (k : String) (dflt : JVal) : Except PyExc JVal :=
  match v with
  | .obj fs => .ok ((dget fs k).getD dflt)
  | _ => .error (.attributeError "object has no attribute get")

/-- Python truthiness of a JSON value. -/
def pyTruthy : JVal → Bool
  | .null => false
  | .b v => v
  | .i n => n ≠ 0
  | .s v => v ≠ ""
  | .arr xs => !xs.isEmpty
  | .obj fs => !fs.isEmpty

mutual

/-- Python `repr` of a JSON value (containers render their elements). -/
def pyRepr : JVal → String
  | .null => "None"
  | .b true => "True"
  | .b false => "False"
  | .i n => toString n
  | .s v => sqS ++ v ++ sqS
  | .arr xs => "[" ++ pyReprList xs ++ "]"
  | .obj fs => "\x7b" ++ pyReprFields fs ++ "\x7d"

def pyReprList : List JVal → String
  | [] => ""
  | [x] => pyRepr x
  | x :: y :: xs => pyRepr x ++ ", " ++ pyReprList (y :: xs)

def pyReprFields : List (String × JVal) → String
  | [] => ""
  | [p] => sqS ++ p.1 ++ sqS ++ ": " ++ pyRepr p.2
  | p :: q :: fs => sqS ++ p.1 ++ sqS ++ ": " ++ pyRepr p.2 ++ ", " ++ pyReprFields (q :: fs)

end

/-- Python `str(v)` as used in f-strings. -/
def pyStr : JVal → String
  | .null => "None"
  | .b true => "True"
  | .b false => "False"
  | .i n => toString n
  | .s v => v
  | .arr xs => pyRepr (.arr xs)
  | .obj fs => pyRepr (.obj fs)

/-- Python `seq[0]` (for the `repositories[0]` access; only reached on
truthy values). -/
def pySeqFirst : JVal → Except PyExc JVal
  | .arr (x :: _) => .ok x
  | .arr [] => .error (.typeError "list index out of range")
  | .s v =>
      match v.toList with
      | c :: _ => .ok (.s (String.mk [c]))
      | [] => .error (.typeError "string index out of range")
  | .obj fs =>
      match fs with
      | _ => .error (.keyError "0")
  | _ => .error (.typeError "object is not subscriptable")

/-- Python `for x in v`: lists yield elements, strings characters, dicts
their keys; scalars are not iterable. -/
def pyIterate : JVal → Except PyExc (List JVal)
  | .arr xs => .ok xs
  | .s v => .ok (v.toList.map (fun c => .s (String.mk [c])))
  | .obj fs => .ok (fs.map (fun p => .s p.1))
  | _ => .error (.typeError "object is not iterable")

/-! ### pydantic lax-mode field validation for the adapter models -/

/-- pydantic `str` field: accepts exactly strings. -/
def asStr (v : JVal) : Except PyExc String :=
  match v with
  | .s t => .ok t
  | _ => .error (.validationError "Input should be a valid string")

/-- pydantic `str | None` field. -/
def asOptStr (v : JVal) : Except PyExc (Option String) :=
  match v with
  | .null => .ok none
  | .s t => .ok (some t)
  | _ => .error (.validationError "Input should be a valid string")

/-- pydantic `list[str]` field. -/
def asStrList (v : JVal) : Except PyExc (List String) :=
  match v with
  | .arr xs =>
      xs.foldr (fun x acc =>
        match x, acc with
        | .s t, .ok tl => .ok (t :: tl)
        | _, .error e => .error e
        | _, _ => .error (.validationError "Input should be a valid string")) (.ok [])
  | _ => .error (.validationError "Input should be a valid list")

/-- pydantic `dict` field (for `original_metadata`). -/
def asDict (v : JVal) : Except PyExc JVal :=
  match v with
  | .obj _ => .ok v
  | _ => .error (.validationError "Input should be a valid dictionary")

/-! ## `detector.py` -/

/-- `detector.can_handle`: any lookup failure reports "not recognized". -/
def can_handle (payload : JVal) : Bool :=
  match pyGet payload "metadata" (.obj []) with
  | .error _ => false
  | .ok m =>
      match pyGet m "generator" (.obj []) with
      | .error _ => false
      | .ok g =>
          match pyGet g "name" .null with
          | .error _ => false
          | .ok n => n == .s "AbsaOSS/living-doc-collector-gh"

/-- `detector.extract_version`.  The error string is the `AdapterError`
message; the returned value is whatever the payload holds at
`metadata.generator.version` (the code performs no type check on it). -/
def extract_version (payload : JVal) : Except String JVal :=
  match (do
      let m ← pySubscript payload "metadata"
      let g ← pySubscript m "generator"
      pySubscript g "version" : Except PyExc JVal) with
  | .error e =>
      .error ("Missing or invalid metadata.generator.version in payload: " ++ excStr e)
  | .ok version =>
      if !pyTruthy version then
        .error "Producer version is empty in metadata.generator.version"
      else .ok version

/-! ## `models.py` (adapter) and `parser.py` -/

structure AdapterItemTimestamps where
  created : String
  updated : String
deriving DecidableEq, Repr

structure AdapterItem where
  id : String
  title : String
  state : String
  tags : List String
  url : String
  timestamps : AdapterItemTimestamps
  body : Option String
deriving DecidableEq, Repr

structure AdapterMetadataProducer where
  name : String
  version : String
  build : Option String
deriving DecidableEq, Repr

structure AdapterMetadataRun where
  run_id : Option String
  run_attempt : Option String
  actor : Option String
  workflow : Option String
  ref : Option String
  sha : Option String
deriving DecidableEq, Repr

structure AdapterMetadataSource where
  systems : List String
  repositories : List String
  organization : Option String
  enterprise : Option String
deriving DecidableEq, Repr

structure AdapterMetadata where
  producer : AdapterMetadataProducer
  run : AdapterMetadataRun
  source : AdapterMetadataSource
  original_metadata : JVal

structure AdapterResult where
  items : List AdapterItem
  metadata : AdapterMetadata
  warnings : List CompatibilityWarning

/-- How `parse` fails internally: an `AdapterError` raised inside the
`try` block (re-raised unchanged by `except AdapterError: raise`), or an
uncaught Python exception (re-wrapped by the final `except Exception`). -/
inductive ParseExc
  | adapter (msg : String)
  | py (e : PyExc)
deriving DecidableEq, Repr

/-- The body of the per-issue loop: evaluate the `AdapterItem(...)` call
in Python's argument order, then validate fields in pydantic's field
order (`AdapterItemTimestamps` is constructed, and therefore validated,
while the arguments are being evaluated). -/
def buildItem (source_repo : JVal) (issue : JVal) : Except PyExc AdapterItem := do
  let num ← pySubscript issue "number"
  let idStr := "github:" ++ pyStr source_repo ++ "#" ++ pyStr num
  let titleJ ← pySubscript issue "title"
  let stateJ ← pySubscript issue "state"
  let tagsJ ← pyGet issue "labels" (.arr [])
  let urlJ ← pySubscript issue "html_url"
  let createdJ ← pySubscript issue "created_at"
  let updatedJ ← pySubscript issue "updated_at"
  let created ← asStr createdJ
  let updated ← asStr updatedJ
  let bodyJ ← pyGet issue "body" .null
  let title ← asStr titleJ
  let state ← asStr stateJ
  let tags ← asStrList tagsJ
  let url ← asStr urlJ
  let body ← asOptStr bodyJ
  pure { id := idStr, title := title, state := state, tags := tags, url := url,
         timestamps := ⟨created, updated⟩, body := body }

/-- One iteration of the issue loop with its
`except (KeyError, TypeError)` handler: those two exception classes are
converted to an `AdapterError` naming `issue.get("number", "unknown")`;
anything else (notably a pydantic `ValidationError`) escapes to the outer
handler.  The handler itself re-raises a Python exception if `issue` has
no `.get` method. -/
def parseIssue (source_repo : JVal) (issue : JVal) : Except ParseExc AdapterItem :=
  match buildItem source_repo issue with
  | .ok item => .ok item
  | .error e =>
      match e with
      | .keyError _ | .typeError _ =>
          match pyGet issue "number" (.s "unknown") with
          | .ok numv =>
              .error (.adapter ("Failed to parse issue " ++ pyStr numv ++ ": " ++ excStr e))
          | .error ae => .error (.py ae)
      | other => .error (.py other)

def parseIssues (source_repo : JVal) : List JVal → Except ParseExc (List AdapterItem)
  | [] => .ok []
  | issue :: rest => do
      let item ← parseIssue source_repo issue
      let tl ← parseIssues source_repo rest
      pure (item :: tl)

/-- `check_compatibility(version)` as `parse` calls it: the external
`Version` constructor raises a `TypeError` when handed a non-string. -/
def computeWarnings (version : JVal) : Except ParseExc (List CompatibilityWarning) :=
  match version with
  | .s vs => pure (check_compatibility vs)
  | _ => .error (.py (.typeError "expected string or bytes-like object"))

/-- `repositories[0] if repositories else "unknown/repo"` (parser.py
line 51). -/
def resolveSourceRepo (repositories : JVal) : Except PyExc JVal :=
  if pyTruthy repositories then pySeqFirst repositories
  else pure (JVal.s "unknown/repo")

/-- The `try` body of `parser.parse`, before the outer exception
handlers. -/
def parseCore (payload : JVal) : Except ParseExc AdapterResult := do
  let version ← (extract_version payload).mapError ParseExc.adapter
  let warnings ← computeWarnings version
  let metadata_dict ← (pyGet payload "metadata" (.obj [])).mapError .py
  let generator ← (pyGet metadata_dict "generator" (.obj [])).mapError .py
  let run ← (pyGet metadata_dict "run" (.obj [])).mapError .py
  let source ← (pyGet metadata_dict "source" (.obj [])).mapError .py
  let repositories ← (pyGet source "repositories" (.arr [])).mapError .py
  let source_repo ← (resolveSourceRepo repositories).mapError .py
  let pnameJ ← (pyGet generator "name" (.s "")).mapError .py
  let pversionJ ← (pyGet generator "version" (.s "")).mapError .py
  let pbuildJ ← (pyGet generator "build" .null).mapError .py
  let producer ← (do
      let n ← asStr pnameJ
      let v ← asStr pversionJ
      let bu ← asOptStr pbuildJ
      pure (⟨n, v, bu⟩ : AdapterMetadataProducer) : Except PyExc _).mapError .py
  let runIdJ ← (pyGet run "run_id" .null).mapError .py
  let runAttJ ← (pyGet run "run_attempt" .null).mapError .py
  let actorJ ← (pyGet run "actor" .null).mapError .py
  let workflowJ ← (pyGet run "workflow" .null).mapError .py
  let refJ ← (pyGet run "ref" .null).mapError .py
  let shaJ ← (pyGet run "sha" .null).mapError .py
  let runRec ← (do
      let a ← asOptStr runIdJ
      let b ← asOptStr runAttJ
      let c ← asOptStr actorJ
      let d ← asOptStr workflowJ
      let e ← asOptStr refJ
      let f ← asOptStr shaJ
      pure (⟨a, b, c, d, e, f⟩ : AdapterMetadataRun) : Except PyExc _).mapError .py
  let systemsJ ← (pyGet source "systems" (.arr [])).mapError .py
  let orgJ ← (pyGet source "organization" .null).mapError .py
  let entJ ← (pyGet source "enterprise" .null).mapError .py
  let sourceRec ← (do
      let sys ← asStrList systemsJ
      let repos ← asStrList repositories
      let org ← asOptStr orgJ
      let ent ← asOptStr entJ
      pure (⟨sys, repos, org, ent⟩ : AdapterMetadataSource) : Except PyExc _).mapError .py
  let origMeta ← (asDict metadata_dict).mapError .py
  let metadata : AdapterMetadata :=
    { producer := producer, run := runRec, source := sourceRec, original_metadata := origMeta }
  let issuesJ ← (pyGet payload "issues" (.arr [])).mapError .py
  let issues ← (pyIterate issuesJ).mapError .py
  let items ← parseIssues source_repo issues
  pure { items := items, metadata := metadata, warnings := warnings }

/-- `parser.parse`: the outer handlers re-raise `AdapterError` unchanged
and wrap any other exception.  The error string is the `AdapterError`
message. -/
def parse (payload : JVal) : Except String AdapterResult :=
  match parseCore payload with
  | .ok r => .ok r
  | .error (.adapter m) => .error m
  | .error (.py e) => .error ("Failed to parse collector-gh payload: " ++ excStr e)

/-- The minimal valid payload used by the repository's own parser tests. -/
def minimalPayload (repos : List JVal) (issues : List JVal) : JVal :=
  .obj [("metadata", .obj
           [("generator", .obj [("name", .s "AbsaOSS/living-doc-collector-gh"),
                                ("version", .s "1.0.0"), ("build", .s "test")]),
            ("run", .obj [("run_id", .s "123"), ("run_attempt", .s "1"),
                          ("actor", .s "test@example.com"), ("workflow", .s "test"),
                          ("ref", .s "refs/heads/main"), ("sha", .s "abc123")]),
            ("source", .obj [("systems", .arr [.s "GitHub"]),
                             ("repositories", .arr repos),
                             ("organization", .s "owner"), ("enterprise", .null)])]),
        ("issues", .arr issues)]

def minimalIssue : JVal :=
  .obj [("number", .i 1), ("title", .s "Test Issue"), ("state", .s "open"),
        ("labels", .arr [.s "test"]), ("html_url", .s "https://github.com/owner/repo/issues/1"),
        ("created_at", .s "2026-01-01T00:00:00Z"), ("updated_at", .s "2026-01-02T00:00:00Z"),
        ("body", .s "Test body")]

/-- `minimalIssue` with its `title` removed: the repository's
`test_parse_missing_issue_field_raises_error` case. -/
def issueNoTitle : JVal :=
  .obj [("number", .i 1), ("state", .s "open"),
        ("labels", .arr [.s "test"]), ("html_url", .s "https://github.com/owner/repo/issues/1"),
        ("created_at", .s "2026-01-01T00:00:00Z"), ("updated_at", .s "2026-01-02T00:00:00Z"),
        ("body", .s "Test body")]

/-- `minimalIssue` with a mistyped (integer) `title`. -/
def issueIntTitle : JVal :=
  .obj [("number", .i 1), ("title", .i 123), ("state", .s "open"),
        ("labels", .arr [.s "test"]), ("html_url", .s "https://github.com/owner/repo/issues/1"),
        ("created_at", .s "2026-01-01T00:00:00Z"), ("updated_at", .s "2026-01-02T00:00:00Z"),
        ("body", .s "Test body")]

/-- `minimalIssue` with a mistyped (string) `number`. -/
def issueStrNumber : JVal :=
  .obj [("number", .s "5"), ("title", .s "Test Issue"), ("state", .s "open"),
        ("labels", .arr [.s "test"]), ("html_url", .s "https://github.com/owner/repo/issues/1"),
        ("created_at", .s "2026-01-01T00:00:00Z"), ("updated_at", .s "2026-01-02T00:00:00Z"),
        ("body", .s "Test body")]

/-! ## `datasets_pdf` models

The pydantic models of `audit/v1/models.py` and `pdf_ready/v1/models.py`,
with their `field_validator`s as fallible constructors (validators run in
field order; the error string stands for the pydantic `ValidationError`).
All of them declare `extra = "forbid"`; the closed-schema behavior is
modelled separately for claim C5. -/

structure AuditWarning where
  code : String
  message : String
  context : Option String
deriving DecidableEq, Repr

structure TraceStep where
  step : String
  tool : String
  tool_version : String
  started_at : Option String
  finished_at : Option String
  warnings : List AuditWarning
deriving DecidableEq, Repr

structure AuditSource where
  systems : List String
  repositories : List String
  organization : Option String
  enterprise : Option String
deriving DecidableEq, Repr

/-- `Source.systems_must_be_non_empty`. -/
def mkAuditSource (systems repositories : List String) (organization enterprise : Option String) :
    Except String AuditSource :=
  if systems.isEmpty then .error "systems must be non-empty"
  else .ok ⟨systems, repositories, organization, enterprise⟩

structure AuditRun where
  run_id : Option String
  run_attempt : Option String
  actor : Option String
  workflow : Option String
  ref : Option String
  sha : Option String
deriving DecidableEq, Repr

structure AuditProducer where
  name : String
  version : String
  build : Option String
deriving DecidableEq, Repr

/-- `Producer.name_must_be_non_empty`. -/
def mkAuditProducer (name version : String) (build : Option String) :
    Except String AuditProducer :=
  if name = "" || pyStrip name = "" then .error "name must be non-empty"
  else .ok ⟨name, version, build⟩

structure AuditEnvelopeV1 where
  schema_version : String
  producer : AuditProducer
  run : AuditRun
  source : AuditSource
  trace : List TraceStep
  extensions : List (String × List (String × JVal))

/-- `AuditEnvelopeV1.schema_version_must_be_1_0`. -/
def mkAuditEnvelopeV1 (schema_version : String) (producer : AuditProducer) (run : AuditRun)
    (source : AuditSource) (trace : List TraceStep)
    (extensions : List (String × List (String × JVal))) : Except String AuditEnvelopeV1 :=
  if schema_version ≠ "1.0" then .error "schema_version must be 1.0"
  else .ok ⟨schema_version, producer, run, source, trace, extensions⟩

structure Timestamps where
  created : String
  updated : String
deriving DecidableEq, Repr

structure Sections where
  description : Option String
  business_value : Option String
  preconditions : Option String
  acceptance_criteria : Option String
  user_guide : Option String
  connections : Option String
  last_edited : Option String
deriving DecidableEq, Repr

structure UserStory where
  id : String
  title : String
  state : String
  tags : List String
  url : String
  timestamps : Timestamps
  sections : Sections
deriving DecidableEq, Repr

/-- `UserStory.title_must_be_valid_length`. -/
def mkUserStory (id title state : String) (tags : List String) (url : String)
    (timestamps : Timestamps) (sections : Sections) : Except String UserStory :=
  if title = "" || title.length < 1 || title.length > 500 then .error "title must be 1-500 chars"
  else .ok ⟨id, title, state, tags, url, timestamps, sections⟩

structure Content where
  user_stories : List UserStory
deriving DecidableEq, Repr

structure RunContext where
  ci_run_id : Option String
  triggered_by : Option String
  branch : Option String
  commit_sha : Option String
deriving DecidableEq, Repr

/-- `SelectionSummary`: the `ge=0` bounds hold by the `Nat` typing. -/
structure SelectionSummary where
  total_items : Nat
  included_items : Nat
  excluded_items : Nat
deriving DecidableEq, Repr

structure Meta where
  document_title : String
  document_version : String
  generated_at : String
  source_set : List String
  selection_summary : SelectionSummary
  run_context : Option RunContext
  audit : Option AuditEnvelopeV1

/-- `Meta`'s three validators, in field order: title length, version
length, non-empty source set. -/
def mkMeta (document_title document_version generated_at : String) (source_set : List String)
    (selection_summary : SelectionSummary) (run_context : Option RunContext)
    (audit : Option AuditEnvelopeV1) : Except String Meta :=
  if document_title = "" || document_title.length < 1 || document_title.length > 200 then
    .error "document_title must be 1-200 chars"
  else if document_version = "" || document_version.length < 1 || document_version.length > 50 then
    .error "document_version must be 1-50 chars"
  else if source_set.isEmpty then .error "source_set must be non-empty"
  else .ok ⟨document_title, document_version, generated_at, source_set, selection_summary,
            run_context, audit⟩

structure PdfReadyV1 where
  schema_version : String
  meta : Meta
  content : Content

/-- `PdfReadyV1.schema_version_must_be_1_0`. -/
def mkPdfReadyV1 (schema_version : String) (meta : Meta) (content : Content) :
    Except String PdfReadyV1 :=
  if schema_version ≠ "1.0" then .error "schema_version must be 1.0"
  else .ok ⟨schema_version, meta, content⟩

/-! ## `builder.py` -/

/-- Python `str.startswith`. -/
def pyStartsWith (s pat : String) : Bool :=
  pat.toList.isPrefixOf s.toList

/-- Python `str.replace` (all non-overlapping occurrences, left to
right), for a non-empty pattern. -/
def replaceList (pat repl : List Char) : Nat → List Char → List Char
  | 0, cs => cs
  | _, [] => []
  | fuel + 1, c :: rest =>
      if pat.isPrefixOf (c :: rest) && !pat.isEmpty then
        repl ++ replaceList pat repl fuel ((c :: rest).drop pat.length)
      else c :: replaceList pat repl fuel rest

def pyReplace (s pat repl : String) : String :=
  String.mk (replaceList pat.toList repl.toList (s.toList.length + 1) s.toList)

/-- `builder._build_audit_envelope`.  The ambient clock
(`datetime.now(timezone.utc).isoformat()`) is modelled by the `now`
argument. -/
def _build_audit_envelope (now : String) (adapter_result : AdapterResult) :
    Except String AuditEnvelopeV1 := do
  let producer ← mkAuditProducer adapter_result.metadata.producer.name
      adapter_result.metadata.producer.version adapter_result.metadata.producer.build
  let run : AuditRun :=
    ⟨adapter_result.metadata.run.run_id, adapter_result.metadata.run.run_attempt,
     adapter_result.metadata.run.actor, adapter_result.metadata.run.workflow,
     adapter_result.metadata.run.ref, adapter_result.metadata.run.sha⟩
  let source ← mkAuditSource adapter_result.metadata.source.systems
      adapter_result.metadata.source.repositories adapter_result.metadata.source.organization
      adapter_result.metadata.source.enterprise
  let audit_warnings := adapter_result.warnings.map
      (fun w => (⟨w.code, w.message, w.context⟩ : AuditWarning))
  let normalization_step : TraceStep :=
    ⟨"normalization", "living-doc-toolkit", "1.0.0", some now, some now, audit_warnings⟩
  let trace := [normalization_step]
  let extensions := [("collector-gh", [("original_metadata",
      adapter_result.metadata.original_metadata)])]
  mkAuditEnvelopeV1 "1.0" producer run source trace extensions

/-- The caller-supplied `options` mapping, restricted to the keys the
builder reads; `none` models an absent key. -/
structure BuildOptions where
  document_title : Option String
  document_version : Option String
deriving DecidableEq, Repr

/-- The user-story construction for one adapter item. -/
def buildStory (item : AdapterItem) : Except String UserStory :=
  let normalized := normalize_sections (item.body.getD "")
  let sections : Sections :=
    ⟨(dget normalized "description").join, (dget normalized "business_value").join,
     (dget normalized "preconditions").join, (dget normalized "acceptance_criteria").join,
     (dget normalized "user_guide").join, (dget normalized "connections").join,
     (dget normalized "last_edited").join⟩
  mkUserStory item.id item.title item.state item.tags item.url
    ⟨item.timestamps.created, item.timestamps.updated⟩ sections

def buildStories : List AdapterItem → Except String (List UserStory)
  | [] => .ok []
  | item :: rest => do
      let story ← buildStory item
      let tl ← buildStories rest
      pure (story :: tl)

/-- The document-title fallback logic of `build_pdf_ready`: a falsy
override (absent key or empty string) is replaced by a title derived from
the first `source_set` entry, or by the fixed generic title when no
repository is known. -/
def resolve_document_title (override : Option String) (source_set : List String) : String :=
  let fallback :=
    match source_set with
    | first_repo :: _ => "Living Documentation - " ++ pyReplace first_repo "github:" ""
    | [] => "Living Documentation"
  match override with
  | some t => if t ≠ "" then t else fallback
  | none => fallback

/-- `builder.build_pdf_ready`.  The ambient clock is modelled by `now`
(the source reads it twice, once inside `_build_audit_envelope` and once
for `generated_at`; collapsing both reads to one value is immaterial
here). -/
def build_pdf_ready (now : String) (adapter_result : AdapterResult) (options : BuildOptions) :
    Except String PdfReadyV1 := do
  let user_stories ← buildStories adapter_result.items
  let content : Content := ⟨user_stories⟩
  let total_items := adapter_result.items.length
  let selection_summary : SelectionSummary := ⟨total_items, total_items, 0⟩
  let source_set := adapter_result.metadata.source.repositories.map
      (fun repo => if !pyStartsWith repo "github:" then "github:" ++ repo else repo)
  let document_title := resolve_document_title options.document_title source_set
  let document_version := options.document_version.getD "1.0.0"
  let run_context : Option RunContext :=
    match adapter_result.metadata.run.run_id with
    | some rid =>
        if rid ≠ "" then
          some ⟨adapter_result.metadata.run.run_id, adapter_result.metadata.run.actor,
                adapter_result.metadata.run.ref, adapter_result.metadata.run.sha⟩
        else none
    | none => none
  let audit ← _build_audit_envelope now adapter_result
  let generated_at := now
  let meta ← mkMeta document_title document_version generated_at source_set selection_summary
      run_context (some audit)
  mkPdfReadyV1 "1.0" meta content

/-- A concrete adapter result mirroring the repository's builder tests. -/
def sampleMetadata (repos : List String) : AdapterMetadata :=
  { producer := ⟨"living-doc-collector-gh", "1.0.0", none⟩,
    run := ⟨some "123456", some "1", some "testuser", some "test-workflow",
            some "main", some "abc123"⟩,
    source := ⟨["github"], repos, some "owner", none⟩,
    original_metadata := .obj [] }

def sampleItem : AdapterItem :=
  { id := "github:owner/repo#123", title := "Test Issue", state := "open",
    tags := ["enhancement"], url := "https://github.com/owner/repo/issues/123",
    timestamps := ⟨"2026-01-01T00:00:00Z", "2026-01-02T00:00:00Z"⟩,
    body := some "## Description\nThis is a test issue." }

def sampleResult (repos : List String) : AdapterResult :=
  { items := [sampleItem], metadata := sampleMetadata repos, warnings := [] }

/-! ## Closed-schema behavior of the pipeline's record types (claim C5)

pydantic rejects or ignores unknown input fields according to the model's
`model_config`.  Every model class of `datasets_pdf` declares
`model_config = {"extra": "forbid", ...}`; the adapter models in
`collector_gh/models.py` subclass `BaseModel` with no `model_config`, so
they use pydantic's default `extra="ignore"`.  The schemas below list each
model's declared field names and its extra-field policy, read off the
three model files. -/

inductive ExtraPolicy
  | ignore
  | forbid
deriving DecidableEq, Repr

structure ModelSchema where
  name : String
  fields : List String
  extra : ExtraPolicy
deriving DecidableEq, Repr

/-- The models of `collector_gh/models.py` (plain `BaseModel`). -/
def adapterModelSchemas : List ModelSchema :=
  [⟨"CompatibilityWarning", ["code", "message", "context"], .ignore⟩,
   ⟨"AdapterItemTimestamps", ["created", "updated"], .ignore⟩,
   ⟨"AdapterItem", ["id", "title", "state", "tags", "url", "timestamps", "body"], .ignore⟩,
   ⟨"AdapterMetadataProducer", ["name", "version", "build"], .ignore⟩,
   ⟨"AdapterMetadataRun", ["run_id", "run_attempt", "actor", "workflow", "ref", "sha"], .ignore⟩,
   ⟨"AdapterMetadataSource", ["systems", "repositories", "organization", "enterprise"], .ignore⟩,
   ⟨"AdapterMetadata", ["producer", "run", "source", "original_metadata"], .ignore⟩,
   ⟨"AdapterResult", ["items", "metadata", "warnings"], .ignore⟩]

/-- The models of `pdf_ready/v1/models.py` (`extra = "forbid"`). -/
def pdfReadyModelSchemas : List ModelSchema :=
  [⟨"Timestamps", ["created", "updated"], .forbid⟩,
   ⟨"Sections", ["description", "business_value", "preconditions", "acceptance_criteria",
                 "user_guide", "connections", "last_edited"], .forbid⟩,
   ⟨"UserStory", ["id", "title", "state", "tags", "url", "timestamps", "sections"], .forbid⟩,
   ⟨"Content", ["user_stories"], .forbid⟩,
   ⟨"RunContext", ["ci_run_id", "triggered_by", "branch", "commit_sha"], .forbid⟩,
   ⟨"SelectionSummary", ["total_items", "included_items", "excluded_items"], .forbid⟩,
   ⟨"Meta", ["document_title", "document_version", "generated_at", "source_set",
             "selection_summary", "run_context", "audit"], .forbid⟩,
   ⟨"PdfReadyV1", ["schema_version", "meta", "content"], .forbid⟩]

/-- The models of `audit/v1/models.py` (`extra = "forbid"`). -/
def auditModelSchemas : List ModelSchema :=
  [⟨"AuditWarning", ["code", "message", "context"], .forbid⟩,
   ⟨"TraceStep", ["step", "tool", "tool_version", "started_at", "finished_at", "warnings"],
    .forbid⟩,
   ⟨"Source", ["systems", "repositories", "organization", "enterprise"], .forbid⟩,
   ⟨"Run", ["run_id", "run_attempt", "actor", "workflow", "ref", "sha"], .forbid⟩,
   ⟨"Producer", ["name", "version", "build"], .forbid⟩,
   ⟨"AuditEnvelopeV1", ["schema_version", "producer", "run", "source", "trace", "extensions"],
    .forbid⟩]

/-- All structured record types of the pipeline, as the claim quantifies
over them. -/
def pipelineModelSchemas : List ModelSchema :=
  adapterModelSchemas ++ pdfReadyModelSchemas ++ auditModelSchemas

/-- Whether pydantic raises a validation error for the extra keys of an
input object with key set `keys` when validating against `m` (field-name
level of the deserialization; per-field value validation is independent of
the extra-key rule and modelled elsewhere). -/
def extraKeyRejected (m : ModelSchema) (keys : List String) : Bool :=
  m.extra == .forbid && keys.any (fun k => !m.fields.contains k)

/-! ## `json_utils.read_json`, `errors.py` and the service's read stage -/

/-- `errors.py`: the toolkit error classes with their exit codes. -/
inductive ToolkitError
  | invalidInput (msg : String)
  | adapterError (msg : String)
  | schemaValidationError (msg : String)
  | normalizationError (msg : String)
  | fileIOError (msg : String)
deriving DecidableEq, Repr

/-- The `exit_code` class attribute of each error class. -/
def ToolkitError.exit_code : ToolkitError → Nat
  | .invalidInput _ => 1
  | .adapterError _ => 2
  | .schemaValidationError _ => 3
  | .normalizationError _ => 4
  | .fileIOError _ => 5

def ToolkitError.message : ToolkitError → String
  | .invalidInput m => m
  | .adapterError m => m
  | .schemaValidationError m => m
  | .normalizationError m => m
  | .fileIOError m => m

/-- What `open()`/reading the input file does: the file-system outcomes
`read_json` distinguishes. -/
inductive ReadOutcome
  | fileNotFound
  | permissionDenied
  | osError
  | content (text : String)

/-- `json_utils.read_json`.  The external `json.load` is modelled by the
`parseJson` argument (`none` models `json.JSONDecodeError`, whose text is
abbreviated). -/
def read_json (parseJson : String → Option JVal) (filepath : String) (outcome : ReadOutcome) :
    Except ToolkitError JVal :=
  match outcome with
  | .fileNotFound => .error (.fileIOError ("File " ++ sqS ++ filepath ++ sqS ++ " not found"))
  | .permissionDenied =>
      .error (.fileIOError ("Permission denied reading " ++ sqS ++ filepath ++ sqS))
  | .osError => .error (.fileIOError ("Error reading file " ++ sqS ++ filepath ++ sqS))
  | .content text =>
      match parseJson text with
      | some v => .ok v
      | none =>
          .error (.invalidInput ("Malformed JSON in " ++ sqS ++ filepath ++ sqS
            ++ ": invalid syntax"))

/-- `run_service`'s exception handling around the pipeline: the classes
`InvalidInputError`, `AdapterError` and `NormalizationError` are re-raised
unchanged; every other exception — including a `FileIOError` escaping the
read stage — is wrapped as a `NormalizationError`. -/
def run_service_wrap (e : ToolkitError) : ToolkitError :=
  match e with
  | .invalidInput _ => e
  | .adapterError _ => e
  | .normalizationError _ => e
  | other => .normalizationError ("Unexpected error during normalization: " ++ other.message)

/-! ## Claim-side characterizations and claim statements

The definitions below restate parts of the claims in the spec's own words
(independently of the loop-and-state style of the embedded code), for the
refinement comparisons, together with `Prop`-level renderings of the
claims that the code falsifies. -/

/-- The last element of a list, or a default (the shape of repeated
assignment in a loop). -/
def lastOr {α : Type} : List α → Option α → Option α
  | [], k => k
  | x :: xs, _ => lastOr xs (some x)

/-- The seven canonical section names. -/
def canonicalSectionNames : List String :=
  ["description", "business_value", "preconditions", "acceptance_criteria",
   "user_guide", "connections", "last_edited"]

/-- The stripped contents of the description-synonym sections of a split
body, in encounter order. -/
def descSynContents (sr : List (String × String)) : List String :=
  sr.filterMap (fun hc =>
    if hc.1 ≠ "" ∧ dget synonym_to_canonical (normalize_heading hc.1) = some "description"
        ∧ hc.2 ≠ "" ∧ pyStrip hc.2 ≠ "" then
      some (pyStrip hc.2)
    else none)

/-- The re-serialized level-3 blocks of the unrecognized headings of a
split body, in encounter order. -/
def unknownBlocksOf (sr : List (String × String)) : List String :=
  sr.filterMap (fun hc =>
    if hc.1 ≠ "" ∧ dget synonym_to_canonical (normalize_heading hc.1) = none
        ∧ hc.2 ≠ "" ∧ pyStrip hc.2 ≠ "" then
      some ("### " ++ hc.1 ++ "\n" ++ pyStrip hc.2)
    else none)

/-- The (zero- or one-element) pre-heading content of a split body. -/
def prePartsOf (sr : List (String × String)) : List String :=
  match dget sr "" with
  | some c => if c ≠ "" then [pyStrip c] else []
  | none => []

/-- The description parts a normalized body must assemble, in the spec's
normative order: description-synonym content, then pre-heading content,
then unknown-heading blocks. -/
def descPartsOf (md : String) : List String :=
  let sr := split_by_headings md
  (lastOr (descSynContents sr) none).toList ++ prePartsOf sr ++ unknownBlocksOf sr

/-- Claim C1 as stated: the mapping returned by `normalize_sections`
always contains the key `"description"`. -/
def c1ClaimHolds : Prop :=
  ∀ md, (dget (normalize_sections md) "description").isSome

/-- Claim C3 as stated: every heading not matched by the synonym table is
preserved, not dropped — its re-serialized level-3 heading marker
`"### {heading}"` appears somewhere in the final description. -/
def c3ClaimHolds : Prop :=
  ∀ md, md ≠ "" →
    ∀ p ∈ split_by_headings md, p.1 ≠ "" →
      dget synonym_to_canonical (normalize_heading p.1) = none →
      ∃ s, dget (normalize_sections md) "description" = some (some s) ∧
        ∃ pre post, s = pre ++ ("### " ++ p.1) ++ post

/-- The `metadata.generator.version` lookup chain of `extract_version`. -/
def versionFieldOf (payload : JVal) : Except PyExc JVal := do
  let m ← pySubscript payload "metadata"
  let g ← pySubscript m "generator"
  pySubscript g "version"

/-- Claim C7 as stated: `extract_version` raises exactly when the field is
absent, of the wrong type, or present-but-empty — that is, it succeeds
exactly on non-empty version strings, which it returns unchanged. -/
def c7ClaimHolds : Prop :=
  ∀ payload,
    ((∃ m, extract_version payload = .error m) ↔
      ¬∃ s, versionFieldOf payload = .ok (.s s) ∧ s ≠ "") ∧
    (∀ s, versionFieldOf payload = .ok (.s s) → s ≠ "" →
      extract_version payload = .ok (.s s))

/-- Claim C2 as stated: the warnings of `check_compatibility` are
characterized by semantic-versioning parsing and precedence. -/
def c2ClaimHolds : Prop :=
  ∀ v,
    ((check_compatibility v = []) ↔
      ∃ sv, specSemverParse v = some sv ∧ semverInRange sv = true) ∧
    (specSemverParse v = none →
      ∃ w, check_compatibility v = [w] ∧ w.code = "INVALID_VERSION") ∧
    (∀ sv, specSemverParse v = some sv → semverInRange sv = false →
      ∃ w, check_compatibility v = [w] ∧ w.code = "VERSION_MISMATCH")

/-- Claim C5 as stated: every structured record type in the pipeline
rejects inputs carrying a field name outside its declared schema. -/
def c5ClaimHolds : Prop :=
  ∀ m ∈ pipelineModelSchemas, ∀ (keys : List String) (k : String),
    k ∈ keys → !m.fields.contains k → extraKeyRejected m keys = true

/-- Claim C6's precondition on a raw issue: a required field is missing,
or one of the required string fields is present but not a string (the
claim also calls a mistyped `number` broken; the code formats any value
there, so the weaker precondition below is enough to refute the claim). -/
def brokenIssue (issue : JVal) : Bool :=
  match issue with
  | .obj fields =>
      !((dget fields "number").isSome
        && (match dget fields "title" with | some (.s _) => true | _ => false)
        && (match dget fields "state" with | some (.s _) => true | _ => false)
        && (match dget fields "html_url" with | some (.s _) => true | _ => false)
        && (match dget fields "created_at" with | some (.s _) => true | _ => false)
        && (match dget fields "updated_at" with | some (.s _) => true | _ => false))
  | _ => true

/-- Whether a payload's issue list contains a broken raw issue. -/
def payloadHasBrokenIssue (payload : JVal) : Bool :=
  match payload with
  | .obj fields =>
      match dget fields "issues" with
      | some (.arr issues) => issues.any brokenIssue
      | _ => false
  | _ => false

/-- Whether an adapter error message names an offending issue (the
`"Failed to parse issue N: ..."` template of the per-issue handler). -/
def namesIssue (msg : String) : Bool :=
  pyStartsWith msg "Failed to parse issue "

/-- Claim C6 as stated: whenever `parse` rejects a payload containing a
raw issue with missing or mistyped required fields, the structured
adapter error names the offending issue's number (or "unknown"). -/
def c6ClaimHolds : Prop :=
  ∀ payload msg, payloadHasBrokenIssue payload = true →
    parse payload = .error msg → namesIssue msg = true

/-- Claim C4 as stated, builder half: with zero declared repositories and
no title override, `build_pdf_ready` produces a document titled
`"Living Documentation"` (the parser half of the claim is the true half,
proved separately). -/
def c4ClaimHolds : Prop :=
  ∀ now adapter_result, adapter_result.metadata.source.repositories = [] →
    ∃ d, build_pdf_ready now adapter_result ⟨none, none⟩ = .ok d ∧
      d.meta.document_title = "Living Documentation"

/-- The zero-repository payload of C4, parameterized over its issues. -/
def payloadNoRepos (issues : List JVal) : JVal := minimalPayload [] issues

/-- The final result dict of the loop, before description assembly. -/
def normResultOf (md : String) : List (String × String) :=
  ((split_by_headings md).foldl normStep
    ⟨none, prePartsOf (split_by_headings md), []⟩).result

/-! ## Evaluation checks

Anonymous checks that the embedded functions reproduce, by kernel
reduction, the behaviors the repository pins down in its own unit tests
(compatibility, splitting, normalization, parsing and building). -/

example : pep440Parse "1.0.0" = some ⟨0, [1, 0, 0], none, none, none, none⟩ := by rfl

example : pep440Parse "2.0.0" = some ⟨0, [2, 0, 0], none, none, none, none⟩ := by rfl

example : check_compatibility "1.5.0" = [] := by rfl

example : (check_compatibility "0.9.0").map (·.code) = ["VERSION_MISMATCH"] := by rfl

example : (check_compatibility "not-a-version").map (·.code) = ["INVALID_VERSION"] := by rfl

example : check_compatibility "1.5.0-alpha" = [] := by rfl

example : check_compatibility "1.5.0+build.123" = [] := by rfl

example : (check_compatibility "2.0.0").map (·.code) = ["VERSION_MISMATCH"] := by rfl

example : check_compatibility "1.999.999" = [] := by rfl

example : (check_compatibility "").map (·.code) = ["INVALID_VERSION"] := by rfl

example : specSemverParse "1.5.0" = some ⟨1, 5, 0, []⟩ := by rfl

example : specSemverParse "1.0.0-0.3.7" = some ⟨1, 0, 0, [.num 0, .num 3, .num 7]⟩ := by rfl

example : specSemverParse "1.0.0rc1" = none := by rfl

example : semverInRange ⟨1, 0, 0, [.num 0, .num 3, .num 7]⟩ = false := by rfl

example : pep440Parse "1.0.0-0.3.7" = none := by rfl

example : split_by_headings "" = [("", "")] := by rfl

example : split_by_headings "plain text" = [("", "plain text")] := by rfl

example : split_by_headings "## A\nx\n\n## B\ny" = [("A", "x"), ("B", "y")] := by rfl

example : split_by_headings "pre\n## A\nx" = [("", "pre"), ("A", "x")] := by rfl

example : split_by_headings "### A\nx" = [("", "### A\nx")] := by rfl

example : normalize_sections "" = [("description", none)] := by rfl

example : normalize_sections "## Description\nThis is the description." =
    [("description", some "This is the description.")] := by rfl

example : normalize_sections "## Value\nX" = [("business_value", some "X")] := by rfl

example : normalize_sections "## Description\nA\n\n## Custom\nB" =
    [("description", some "A\n\n### Custom\nB")] := by rfl

example : normalize_sections "Just some plain text with no headings." =
    [("description", some "Just some plain text with no headings.")] := by rfl

example : normalize_sections "## Description\n\n## Business Value\nActual content" =
    [("business_value", some "Actual content")] := by rfl

example : normalize_sections "Some introductory text.\n\n## Business Value\nThis is value." =
    [("business_value", some "This is value."),
     ("description", some "Some introductory text.")] := by rfl

example : extract_version (.obj [("metadata", .obj [("generator", .obj [("version", .s "1.0.0")])])])
    = .ok (.s "1.0.0") := by rfl

example : extract_version (.obj [("metadata", .obj [("generator", .obj [("version", .s "")])])])
    = .error "Producer version is empty in metadata.generator.version" := by rfl

example : extract_version (.obj [])
    = .error ("Missing or invalid metadata.generator.version in payload: " ++ sqS ++ "metadata" ++ sqS) := by
  rfl

example : extract_version (.obj [("metadata", .obj [("generator", .obj [("version", .i 123)])])])
    = .ok (.i 123) := by rfl

example : (parse (minimalPayload [.s "owner/repo"] [minimalIssue])).map (·.items.map (·.id))
    = .ok ["github:owner/repo#1"] := by rfl

example : (parse (minimalPayload [] [minimalIssue])).map (·.items.map (·.id))
    = .ok ["github:unknown/repo#1"] := by rfl

example : (parse (minimalPayload [] [minimalIssue])).map (·.warnings) = .ok [] := by rfl

example : parse (minimalPayload [.s "owner/repo"] [issueNoTitle])
    = .error ("Failed to parse issue 1: " ++ sqS ++ "title" ++ sqS) := by rfl

example : parse (minimalPayload [.s "owner/repo"] [issueIntTitle])
    = .error "Failed to parse collector-gh payload: Input should be a valid string" := by rfl

example : parse (.obj [("issues", .arr [])])
    = .error ("Missing or invalid metadata.generator.version in payload: "
        ++ sqS ++ "metadata" ++ sqS) := by rfl

example : (build_pdf_ready "T" (sampleResult ["github:owner/repo"])
      ⟨some "Test Document", some "1.0.0"⟩).map (fun d => d.meta.document_title)
    = .ok "Test Document" := by rfl

example : (build_pdf_ready "T" (sampleResult ["github:owner/repo"]) ⟨none, none⟩).map
      (fun d => (d.meta.document_title, d.meta.document_version))
    = .ok ("Living Documentation - owner/repo", "1.0.0") := by rfl

example : build_pdf_ready "T" (sampleResult []) ⟨none, none⟩
    = .error "source_set must be non-empty" := by rfl

example : build_pdf_ready "T" (sampleResult ["github:owner/repo"]) ⟨none, some ""⟩
    = .error "document_version must be 1-50 chars" := by rfl

example : (build_pdf_ready "T" (sampleResult ["github:owner/repo"]) ⟨some "", none⟩).map
      (fun d => d.meta.document_title) = .ok "Living Documentation - owner/repo" := by rfl

example : split_by_headings "## Zzz\n## Description\nA"
    = [("Zzz", ""), ("Description", "A")] := by rfl

example : normalize_sections "## Zzz\n## Description\nA"
    = [("description", some "A")] := by rfl

example : (parse (minimalPayload [.s "owner/repo"] [issueStrNumber])).map (·.items.map (·.id))
    = .ok ["github:owner/repo#5"] := by rfl

/-! ## Shared lemmas about the dict model -/

theorem dget_dset_self {α : Type} (r : List (String × α)) (k : String) (v : α) :
    dget (dset r k v) k = some v := by
  induction r with
  | nil => simp [dset, dget]
  | cons p rest ih =>
      by_cases h : p.1 = k
      · simp [dset, dget, h]
      · simp [dset, dget, h, ih]

theorem mem_dset {α : Type} {r : List (String × α)} {k : String} {v : α} {p : String × α}
    (hp : p ∈ dset r k v) : p = (k, v) ∨ p ∈ r := by
  induction r with
  | nil => simpa [dset] using hp
  | cons q rest ih =>
      by_cases h : q.1 = k
      · simp only [dset, if_pos h] at hp
        rcases List.mem_cons.mp hp with h' | h'
        · exact Or.inl (by simp [h', h])
        · exact Or.inr (List.mem_cons_of_mem _ h')
      · simp only [dset, if_neg h] at hp
        rcases List.mem_cons.mp hp with h' | h'
        · exact Or.inr (h' ▸ List.mem_cons_self _ _)
        · rcases ih h' with h'' | h''
          · exact Or.inl h''
          · exact Or.inr (List.mem_cons_of_mem _ h'')

theorem dget_eq_none_of_all_ne {α : Type} {r : List (String × α)} {k : String}
    (h : ∀ p ∈ r, p.1 ≠ k) : dget r k = none := by
  induction r with
  | nil => rfl
  | cons p rest ih =>
      have hp := h p (List.mem_cons_self _ _)
      simp only [dget, if_neg hp]
      exact ih (fun q hq => h q (List.mem_cons_of_mem _ hq))

theorem dget_map_snd {α β : Type} (r : List (String × α)) (f : α → β) (k : String) :
    dget (r.map (fun p => (p.1, f p.2))) k = (dget r k).map f := by
  induction r with
  | nil => rfl
  | cons p rest ih =>
      by_cases h : p.1 = k
      · simp [dget, h]
      · simp [dget, h, ih]

theorem dset_ne_nil {α : Type} (r : List (String × α)) (k : String) (v : α) :
    dset r k v ≠ [] := by
  cases r with
  | nil => simp [dset]
  | cons p rest =>
      by_cases h : p.1 = k <;> simp [dset, h]

/-- `dget` only returns values stored in the dict. -/
theorem dget_prop {α : Type} (P : α → Prop) :
    ∀ (r : List (String × α)) (k : String) (v : α),
      (∀ p ∈ r, P p.2) → dget r k = some v → P v := by
  intro r
  induction r with
  | nil => intro k v _ h; cases h
  | cons p rest ih =>
      intro k v hall h
      by_cases hk : p.1 = k
      · simp only [dget, if_pos hk] at h
        cases h
        exact hall p (List.mem_cons_self _ _)
      · simp only [dget, if_neg hk] at h
        exact ih k v (fun q hq => hall q (List.mem_cons_of_mem _ hq)) h

/-- Every value in the synonym table is one of the seven canonical
section names. -/
theorem syn_canonical_mem : ∀ n c, dget synonym_to_canonical n = some c →
    c ∈ canonicalSectionNames := by
  intro n c h
  exact dget_prop (· ∈ canonicalSectionNames) synonym_to_canonical n c (by decide) h

/-! ## The normalization loop invariant (claims C1 and C3) -/

theorem foldl_normStep_spec : ∀ (sr : List (String × String)) (st : NormState),
    ((sr.foldl normStep st).known = lastOr (descSynContents sr) st.known)
    ∧ ((sr.foldl normStep st).parts = st.parts ++ unknownBlocksOf sr)
    ∧ (∀ p ∈ (sr.foldl normStep st).result,
        p ∈ st.result ∨ (p.1 ∈ canonicalSectionNames ∧ p.1 ≠ "description" ∧ p.2 ≠ "")) := by
  intro sr
  induction sr with
  | nil =>
      intro st
      refine ⟨rfl, by simp [unknownBlocksOf, lastOr], fun p hp => Or.inl hp⟩
  | cons hc rest ih =>
      intro st
      obtain ⟨heading, content⟩ := hc
      simp only [List.foldl_cons]
      by_cases h1 : heading = ""
      · have hstep : normStep st (heading, content) = st := by
          simp [normStep, h1]
        rw [hstep]
        have hd : descSynContents ((heading, content) :: rest) = descSynContents rest := by
          simp [descSynContents, List.filterMap_cons, h1]
        have hu : unknownBlocksOf ((heading, content) :: rest) = unknownBlocksOf rest := by
          simp [unknownBlocksOf, List.filterMap_cons, h1]
        rw [hd, hu]
        exact ih st
      · rcases hs : dget synonym_to_canonical (normalize_heading heading) with _ | c
        · -- unknown heading
          by_cases hk : content ≠ "" ∧ pyStrip content ≠ ""
          · have hstep : normStep st (heading, content) =
                { st with parts := st.parts ++ ["### " ++ heading ++ "\n" ++ pyStrip content] } := by
              simp [normStep, h1, hs, hk.1, hk.2]
            rw [hstep]
            have hd : descSynContents ((heading, content) :: rest) = descSynContents rest := by
              simp [descSynContents, List.filterMap_cons, hs]
            have hu : unknownBlocksOf ((heading, content) :: rest) =
                ("### " ++ heading ++ "\n" ++ pyStrip content) :: unknownBlocksOf rest := by
              simp [unknownBlocksOf, List.filterMap_cons, h1, hs, hk.1, hk.2]
            rw [hd, hu]
            obtain ⟨i1, i2, i3⟩ := ih { st with parts := st.parts ++ ["### " ++ heading ++ "\n" ++ pyStrip content] }
            exact ⟨i1, by simpa using i2, i3⟩
          · have hstep : normStep st (heading, content) = st := by
              rcases not_and_or.mp hk with hk' | hk'
              · simp [normStep, h1, hs, not_not.mp hk']
              · simp [normStep, h1, hs, not_not.mp hk']
            rw [hstep]
            have hd : descSynContents ((heading, content) :: rest) = descSynContents rest := by
              simp [descSynContents, List.filterMap_cons, hs]
            have hu : unknownBlocksOf ((heading, content) :: rest) = unknownBlocksOf rest := by
              rcases not_and_or.mp hk with hk' | hk' <;>
                simp [unknownBlocksOf, List.filterMap_cons, not_not.mp hk']
            rw [hd, hu]
            exact ih st
        · -- recognized heading
          by_cases hk : content ≠ "" ∧ pyStrip content ≠ ""
          · by_cases hdsc : c = "description"
            · have hstep : normStep st (heading, content) =
                  { st with known := some (pyStrip content) } := by
                simp [normStep, h1, hs, hk.1, hk.2, hdsc]
              rw [hstep]
              have hd : descSynContents ((heading, content) :: rest) =
                  pyStrip content :: descSynContents rest := by
                simp [descSynContents, List.filterMap_cons, h1, hs, hdsc, hk.1, hk.2]
              have hu : unknownBlocksOf ((heading, content) :: rest) = unknownBlocksOf rest := by
                simp [unknownBlocksOf, List.filterMap_cons, hs]
              rw [hd, hu]
              obtain ⟨i1, i2, i3⟩ := ih { st with known := some (pyStrip content) }
              exact ⟨by simpa [lastOr] using i1, i2, i3⟩
            · have hstep : normStep st (heading, content) =
                  { st with result := dset st.result c (pyStrip content) } := by
                simp [normStep, h1, hs, hk.1, hk.2, hdsc]
              rw [hstep]
              have hd : descSynContents ((heading, content) :: rest) = descSynContents rest := by
                simp [descSynContents, List.filterMap_cons, hs, hdsc]
              have hu : unknownBlocksOf ((heading, content) :: rest) = unknownBlocksOf rest := by
                simp [unknownBlocksOf, List.filterMap_cons, hs]
              rw [hd, hu]
              obtain ⟨i1, i2, i3⟩ := ih { st with result := dset st.result c (pyStrip content) }
              refine ⟨i1, i2, fun p hp => ?_⟩
              rcases i3 p hp with hmem | hgood
              · rcases mem_dset hmem with he | hmem'
                · refine Or.inr ?_
                  subst he
                  exact ⟨syn_canonical_mem _ _ hs, hdsc, hk.2⟩
                · exact Or.inl hmem'
              · exact Or.inr hgood
          · have hstep : normStep st (heading, content) = st := by
              rcases not_and_or.mp hk with hk' | hk'
              · simp [normStep, h1, hs, not_not.mp hk']
              · simp [normStep, h1, hs, not_not.mp hk']
            rw [hstep]
            have hd : descSynContents ((heading, content) :: rest) = descSynContents rest := by
              rcases not_and_or.mp hk with hk' | hk' <;>
                simp [descSynContents, List.filterMap_cons, not_not.mp hk']
            have hu : unknownBlocksOf ((heading, content) :: rest) = unknownBlocksOf rest := by
              rcases not_and_or.mp hk with hk' | hk' <;>
                simp [unknownBlocksOf, List.filterMap_cons, not_not.mp hk']
            rw [hd, hu]
            exact ih st

theorem normResultOf_good (md : String) :
    ∀ p ∈ normResultOf md, p.1 ∈ canonicalSectionNames ∧ p.1 ≠ "description" ∧ p.2 ≠ "" := by
  intro p hp
  rcases (foldl_normStep_spec (split_by_headings md)
      ⟨none, prePartsOf (split_by_headings md), []⟩).2.2 p hp with h | h
  · cases h
  · exact h

theorem normalize_sections_eq_cases (md : String) (h : md ≠ "") :
    normalize_sections md =
      (if !(descPartsOf md).isEmpty then
        dset (normResultOf md |>.map (fun p => (p.1, some p.2))) "description"
          (some (String.intercalate "\n\n" (descPartsOf md)))
      else if (normResultOf md).isEmpty then [("description", none)]
      else normResultOf md |>.map (fun p => (p.1, some p.2))) := by
  obtain ⟨e1, e2, -⟩ := foldl_normStep_spec (split_by_headings md)
      ⟨none, prePartsOf (split_by_headings md), []⟩
  simp only [normalize_sections, if_neg h]
  have hpre : (match dget (split_by_headings md) "" with
      | some c => if c ≠ "" then [pyStrip c] else []
      | none => []) = prePartsOf (split_by_headings md) := rfl
  rw [hpre]
  have hfinal : (match ((split_by_headings md).foldl normStep
        ⟨none, prePartsOf (split_by_headings md), []⟩).known with
      | some k => [k]
      | none => []) ++ ((split_by_headings md).foldl normStep
        ⟨none, prePartsOf (split_by_headings md), []⟩).parts = descPartsOf md := by
    rw [e1, e2]
    have htl : (match lastOr (descSynContents (split_by_headings md)) none with
        | some k => [k]
        | none => []) = (lastOr (descSynContents (split_by_headings md)) none).toList := by
      cases lastOr (descSynContents (split_by_headings md)) none <;> rfl
    rw [htl, descPartsOf]
    simp
  rw [hfinal]
  have hR : ((split_by_headings md).foldl normStep
      ⟨none, prePartsOf (split_by_headings md), []⟩).result = normResultOf md := rfl
  rw [hR]
  by_cases hp : (descPartsOf md).isEmpty
  · simp only [hp, Bool.not_true, Bool.false_eq_true, if_false]
    cases hE : normResultOf md with
    | nil => rfl
    | cons a l => rfl
  · have hp' : (!(descPartsOf md).isEmpty) = true := by simp [hp]
    simp only [hp', if_true]
    have hne : (dset ((normResultOf md).map (fun p => (p.1, some p.2))) "description"
        (some (String.intercalate "\n\n" (descPartsOf md)))).isEmpty = false := by
      cases hd : dset ((normResultOf md).map (fun p => (p.1, some p.2))) "description"
          (some (String.intercalate "\n\n" (descPartsOf md))) with
      | nil => exact absurd hd (dset_ne_nil _ _ _)
      | cons a l => rfl
    simp only [hne, Bool.false_eq_true, if_false]

/-- C1 (amended): `normalize_sections` returns a non-empty mapping; the
`"description"` key is present whenever the assembled description is
non-empty, and also — with the explicit absent value `none` — when no
section at all ended up with content (in particular for the empty body,
where the result is exactly `[("description", none)]`); but when other
sections have content and the description parts are empty, the
`"description"` key is omitted together with the other empty sections. -/
theorem normalize_sections_description_key (md : String) :
    (md = "" → normalize_sections md = [("description", none)]) ∧
    (dget (normalize_sections md) "description" = none →
      normalize_sections md ≠ [] ∧
      ∀ p ∈ normalize_sections md, p.1 ≠ "description" ∧ ∃ s, p.2 = some s ∧ s ≠ "") ∧
    (dget (normalize_sections md) "description" = some none →
      normalize_sections md = [("description", none)]) := by
  by_cases h : md = ""
  · subst h
    refine ⟨fun _ => rfl, ?_, fun _ => rfl⟩
    intro hd
    rw [show normalize_sections "" = [("description", none)] from rfl] at hd
    simp [dget] at hd
  · refine ⟨fun he => absurd he h, ?_, ?_⟩ <;> rw [normalize_sections_eq_cases md h]
    · -- the description-absent case
      intro hd
      by_cases hp : (descPartsOf md).isEmpty
      · simp only [hp, Bool.not_true, Bool.false_eq_true, if_false] at hd ⊢
        cases hE : normResultOf md with
        | nil => simp_all [dget]
        | cons a l =>
            simp only [hE] at hd ⊢
            have hEmp : (a :: l).isEmpty = false := rfl
            simp only [hEmp, Bool.false_eq_true, if_false] at hd ⊢
            refine ⟨by simp, ?_⟩
            intro p hpmem
            rcases List.mem_map.mp hpmem with ⟨q, hq, rfl⟩
            have hg := normResultOf_good md q (hE ▸ hq)
            exact ⟨hg.2.1, q.2, rfl, hg.2.2⟩
      · have hp' : (!(descPartsOf md).isEmpty) = true := by simp [hp]
        simp only [hp', if_true] at hd
        rw [dget_dset_self] at hd
        cases hd
    · -- the explicit-none case
      intro hd
      by_cases hp : (descPartsOf md).isEmpty
      · simp only [hp, Bool.not_true, Bool.false_eq_true, if_false] at hd ⊢
        cases hE : normResultOf md with
        | nil => simp_all [dget]
        | cons a l =>
            simp only [hE] at hd
            have hEmp : (a :: l).isEmpty = false := rfl
            simp only [hEmp, Bool.false_eq_true, if_false] at hd
            have hnone : dget ((a :: l).map (fun p => (p.1, some p.2))) "description" = none := by
              apply dget_eq_none_of_all_ne
              intro p hpmem
              rcases List.mem_map.mp hpmem with ⟨q, hq, rfl⟩
              exact (normResultOf_good md q (hE ▸ hq)).2.1
            rw [hnone] at hd
            cases hd
      · have hp' : (!(descPartsOf md).isEmpty) = true := by simp [hp]
        simp only [hp', if_true] at hd
        rw [dget_dset_self] at hd
        cases hd

/-- C1's counterexample: for the body `"## Value\nX"` the result is
`[("business_value", some "X")]` and carries no `"description"` key at
all, refuting "description is always present". -/
theorem c1_counterexample : ¬ c1ClaimHolds := by
  intro hcl
  have h := hcl "## Value\nX"
  rw [show normalize_sections "## Value\nX" = [("business_value", some "X")] from rfl] at h
  simp [dget] at h

/-- Witness for `normalize_sections_description_key` at the empty body. -/
theorem normalize_sections_description_key_witness :
    normalize_sections "" = [("description", none)] :=
  (normalize_sections_description_key "").1 rfl

/-- C3 (amended): an unrecognized heading whose stripped content is
non-empty is never discarded — for every non-empty body, whenever the
ordered description parts (description-synonym content, then pre-heading
content, then the `"### {heading}\n{content}"` blocks of the unknown
headings with non-empty stripped content, in encounter order) are
non-empty, the final description is exactly their blank-line join; every
key of the result is one of the seven canonical names (so no unknown
heading gets its own key); the spec's example evaluates exactly as
stated; but an unrecognized heading with empty or whitespace-only
content is dropped entirely, heading text included, as the `"## Zzz"`
example shows. -/
theorem normalize_sections_unknown_headings :
    ((∀ md, md ≠ "" →
      ((descPartsOf md ≠ [] →
        dget (normalize_sections md) "description"
          = some (some (String.intercalate "\n\n" (descPartsOf md)))) ∧
      (∀ p ∈ normalize_sections md, p.1 ∈ canonicalSectionNames))) ∧
    normalize_sections "## Description\nA\n\n## Custom\nB"
      = [("description", some "A\n\n### Custom\nB")]) ∧
    normalize_sections "## Zzz\n## Description\nA"
      = [("description", some "A")] := by
  refine ⟨?_, rfl⟩
  constructor
  · intro md h
    constructor
    · intro hne
      rw [normalize_sections_eq_cases md h]
      have hp : (descPartsOf md).isEmpty = false := by
        cases hc : descPartsOf md with
        | nil => exact absurd hc hne
        | cons a l => rfl
      simp only [hp, Bool.not_false, if_true]
      exact dget_dset_self _ _ _
    · intro p hp
      rw [normalize_sections_eq_cases md h] at hp
      by_cases hdp : (descPartsOf md).isEmpty
      · simp only [hdp, Bool.not_true, Bool.false_eq_true, if_false] at hp
        by_cases hE : (normResultOf md).isEmpty
        · simp only [hE, if_true] at hp
          rcases List.mem_singleton.mp hp with rfl
          decide
        · simp only [hE, Bool.false_eq_true, if_false] at hp
          rcases List.mem_map.mp hp with ⟨q, hq, rfl⟩
          exact (normResultOf_good md q hq).1
      · have hp' : (!(descPartsOf md).isEmpty) = true := by simp [hdp]
        simp only [hp', if_true] at hp
        rcases mem_dset hp with rfl | hp2
        · show "description" ∈ canonicalSectionNames
          decide
        · rcases List.mem_map.mp hp2 with ⟨q, hq, rfl⟩
          exact (normResultOf_good md q hq).1
  · rfl

/-- Witness for `normalize_sections_unknown_headings` at the spec's
example body. -/
theorem normalize_sections_unknown_headings_witness :
    dget (normalize_sections "## Description\nA\n\n## Custom\nB") "description"
      = some (some (String.intercalate "\n\n"
          (descPartsOf "## Description\nA\n\n## Custom\nB"))) :=
  (normalize_sections_unknown_headings.1.1 "## Description\nA\n\n## Custom\nB"
    (by decide)).1 (by decide)

/-- C3's counterexample: the unmatched heading `"Zzz"` has empty content,
so the `if content and content.strip()` guard drops it entirely — heading
text included — and the result for `"## Zzz\n## Description\nA"` is
`{"description": "A"}` with no `"### Zzz"` block anywhere. -/
theorem c3_counterexample : ¬ c3ClaimHolds := by
  intro h
  have hmem : ("Zzz", "") ∈ split_by_headings "## Zzz\n## Description\nA" := by
    rw [show split_by_headings "## Zzz\n## Description\nA"
        = [("Zzz", ""), ("Description", "A")] from rfl]
    exact List.mem_cons_self _ _
  obtain ⟨s, hs, pre, post, heq⟩ := h "## Zzz\n## Description\nA" (by decide) ("Zzz", "")
      hmem (by decide) (by rfl)
  rw [show normalize_sections "## Zzz\n## Description\nA"
      = [("description", some "A")] from rfl] at hs
  have hs2 : (some (some "A") : Option (Option String)) = some (some s) := hs
  injection hs2 with hs3
  injection hs3 with hs4
  subst hs4
  have hlen := congrArg String.length heq
  rw [String.length_append, String.length_append] at hlen
  rw [show ("A" : String).length = 1 from rfl,
      show ("### " ++ "Zzz" : String).length = 7 from rfl] at hlen
  omega

/-! ## Claim C2: `check_compatibility` -/

/-- C2 (amended): the warnings of `check_compatibility` are characterized
by PEP 440 parsing (the `packaging` library the code actually uses)
rather than semver: the list is empty iff the version parses and lies in
`[1.0.0, 2.0.0)` under PEP 440 ordering; an unparsable string yields
exactly one `INVALID_VERSION` warning; an out-of-range version exactly one
`VERSION_MISMATCH` warning; the function is total and never returns more
than one warning. -/
theorem check_compatibility_pep440 (v : String) :
    ((check_compatibility v).length ≤ 1) ∧
    (pep440Parse v = none →
      ∃ w, check_compatibility v = [w] ∧ w.code = "INVALID_VERSION") ∧
    (∀ pv, pep440Parse v = some pv →
      ((check_compatibility v = []) ↔
        (pvLe ((pep440Parse CONFIRMED_MIN).getD pvDefault) pv
          && pvLt pv ((pep440Parse CONFIRMED_MAX).getD pvDefault)) = true) ∧
      ((pvLe ((pep440Parse CONFIRMED_MIN).getD pvDefault) pv
          && pvLt pv ((pep440Parse CONFIRMED_MAX).getD pvDefault)) = false →
        ∃ w, check_compatibility v = [w] ∧ w.code = "VERSION_MISMATCH")) := by
  cases hp : pep440Parse v with
  | none =>
      have hcc : check_compatibility v
          = [{ code := "INVALID_VERSION",
               message := "Producer version " ++ sqS ++ v ++ sqS
                 ++ " is not a valid semantic version",
               context := some "metadata.generator.version" }] := by
        simp [check_compatibility, hp]
      refine ⟨?_, ?_, ?_⟩
      · simp [hcc]
      · intro _
        exact ⟨_, hcc, rfl⟩
      · intro pv h
        exact Option.noConfusion h
  | some pv0 =>
      by_cases hc : (pvLe ((pep440Parse CONFIRMED_MIN).getD pvDefault) pv0
          && pvLt pv0 ((pep440Parse CONFIRMED_MAX).getD pvDefault)) = true
      · have hcc : check_compatibility v = [] := by
          simp [check_compatibility, hp, hc]
        refine ⟨?_, ?_, ?_⟩
        · simp [hcc]
        · intro hn
          exact Option.noConfusion hn
        · intro pv h
          cases h
          refine ⟨⟨fun _ => hc, fun _ => hcc⟩, fun hf => ?_⟩
          rw [hc] at hf
          cases hf
      · have hc' : (pvLe ((pep440Parse CONFIRMED_MIN).getD pvDefault) pv0
            && pvLt pv0 ((pep440Parse CONFIRMED_MAX).getD pvDefault)) = false := by
          simpa using hc
        have hcc : check_compatibility v
            = [{ code := "VERSION_MISMATCH",
                 message := "Producer version " ++ v ++ " is outside confirmed range >="
                   ++ CONFIRMED_MIN ++ ",<" ++ CONFIRMED_MAX,
                 context := some "metadata.generator.version" }] := by
          simp [check_compatibility, hp, hc']
        refine ⟨?_, ?_, ?_⟩
        · simp [hcc]
        · intro hn
          exact Option.noConfusion hn
        · intro pv h
          cases h
          refine ⟨⟨fun hemp => ?_, fun htr => ?_⟩, fun _ => ⟨_, hcc, rfl⟩⟩
          · rw [hcc] at hemp
            cases hemp
          · rw [htr] at hc'
            cases hc'

/-- C2's counterexample: `"1.0.0-0.3.7"` is a valid semantic version below
`1.0.0` (so the claim demands a single `VERSION_MISMATCH` warning), but
the code's PEP 440 parser rejects it and `check_compatibility` returns an
`INVALID_VERSION` warning instead. -/
theorem c2_counterexample : ¬ c2ClaimHolds := by
  intro h
  obtain ⟨-, -, h3⟩ := h "1.0.0-0.3.7"
  obtain ⟨w, hw, hcode⟩ := h3 ⟨1, 0, 0, [.num 0, .num 3, .num 7]⟩ (by rfl) (by rfl)
  rw [show check_compatibility "1.0.0-0.3.7"
      = [{ code := "INVALID_VERSION",
           message := "Producer version " ++ sqS ++ "1.0.0-0.3.7" ++ sqS
             ++ " is not a valid semantic version",
           context := some "metadata.generator.version" }] from rfl] at hw
  cases hw
  exact absurd hcode (by decide)

/-- Witness for `check_compatibility_pep440` at the in-range `"1.5.0"`. -/
theorem check_compatibility_pep440_witness : check_compatibility "1.5.0" = [] :=
  ((check_compatibility_pep440 "1.5.0").2.2 ⟨0, [1, 5, 0], none, none, none, none⟩
    (by rfl)).1.mpr (by rfl)

/-! ## Claim C7: `extract_version` -/

/-- C7 (amended): `extract_version` raises iff the
`metadata.generator.version` lookup fails or the value found there is
falsy, and in both cases the error message names the dotted field path;
any truthy value — in particular every non-empty version string — is
returned unchanged, without any type check. -/
theorem extract_version_behavior (payload : JVal) :
    (∀ e, versionFieldOf payload = .error e →
      extract_version payload
        = .error ("Missing or invalid metadata.generator.version in payload: " ++ excStr e)) ∧
    (∀ v, versionFieldOf payload = .ok v → pyTruthy v = false →
      extract_version payload
        = .error "Producer version is empty in metadata.generator.version") ∧
    (∀ v, versionFieldOf payload = .ok v → pyTruthy v = true →
      extract_version payload = .ok v) ∧
    (∀ m, extract_version payload = .error m →
      m = "Producer version is empty in metadata.generator.version" ∨
      ∃ c, m = "Missing or invalid metadata.generator.version in payload: " ++ c) := by
  have heq : extract_version payload =
      (match versionFieldOf payload with
       | .error e =>
           .error ("Missing or invalid metadata.generator.version in payload: " ++ excStr e)
       | .ok version =>
           if !pyTruthy version then
             .error "Producer version is empty in metadata.generator.version"
           else .ok version) := rfl
  cases hv : versionFieldOf payload with
  | error e0 =>
      have he2 : extract_version payload
          = .error ("Missing or invalid metadata.generator.version in payload: "
              ++ excStr e0) := by
        rw [heq, hv]
      refine ⟨?_, ?_, ?_, ?_⟩
      · intro e h
        cases h
        exact he2
      · intro v h
        exact Except.noConfusion h
      · intro v h
        exact Except.noConfusion h
      · intro m h
        rw [he2] at h
        cases h
        exact Or.inr ⟨excStr e0, rfl⟩
  | ok v0 =>
      by_cases ht : pyTruthy v0 = true
      · have he2 : extract_version payload = .ok v0 := by
          rw [heq, hv]
          simp [ht]
        refine ⟨?_, ?_, ?_, ?_⟩
        · intro e h
          exact Except.noConfusion h
        · intro v h hf
          cases h
          rw [ht] at hf
          cases hf
        · intro v h _
          cases h
          exact he2
        · intro m h
          rw [he2] at h
          cases h
      · have ht' : pyTruthy v0 = false := by simpa using ht
        have he2 : extract_version payload
            = .error "Producer version is empty in metadata.generator.version" := by
          rw [heq, hv]
          simp [ht']
        refine ⟨?_, ?_, ?_, ?_⟩
        · intro e h
          exact Except.noConfusion h
        · intro v h _
          cases h
          exact he2
        · intro v h htr
          cases h
          rw [ht'] at htr
          cases htr
        · intro m h
          rw [he2] at h
          cases h
          exact Or.inl rfl

/-- C7's counterexample: a payload holding the integer `123` at
`metadata.generator.version` — present but of the wrong type — is
returned unchanged instead of raising, refuting the claimed "iff". -/
theorem c7_counterexample : ¬ c7ClaimHolds := by
  intro h
  obtain ⟨hiff, -⟩ := h (.obj [("metadata", .obj [("generator", .obj [("version", .i 123)])])])
  have hnostr : ¬∃ s, versionFieldOf
      (.obj [("metadata", .obj [("generator", .obj [("version", .i 123)])])]) = .ok (.s s)
      ∧ s ≠ "" := by
    rintro ⟨s, hs, -⟩
    rw [show versionFieldOf
        (.obj [("metadata", .obj [("generator", .obj [("version", .i 123)])])])
        = .ok (.i 123) from rfl] at hs
    cases hs
  obtain ⟨m, hm⟩ := hiff.mpr hnostr
  rw [show extract_version
      (.obj [("metadata", .obj [("generator", .obj [("version", .i 123)])])])
      = .ok (.i 123) from rfl] at hm
  cases hm

/-- Witness for `extract_version_behavior` at a well-formed payload. -/
theorem extract_version_behavior_witness :
    extract_version (.obj [("metadata", .obj [("generator", .obj [("version", .s "1.0.0")])])])
      = .ok (.s "1.0.0") :=
  (extract_version_behavior _).2.2.1 (.s "1.0.0") rfl rfl

/-! ## Claim C9: the read stage and the error taxonomy -/

/-- C9: what `read_json` raises.  A missing or unreadable input file
raises `FileIOError` — exit code 5, not the claimed Invalid Input kind
(exit code 1) — and `run_service` then re-wraps it as a
`NormalizationError`; only malformed JSON raises `InvalidInputError`. -/
theorem read_json_error_kinds (parseJson : String → Option JVal) (filepath : String) :
    (read_json parseJson filepath .fileNotFound
      = .error (.fileIOError ("File " ++ sqS ++ filepath ++ sqS ++ " not found"))) ∧
    (∀ e, read_json parseJson filepath .fileNotFound = .error e →
      e.exit_code = 5 ∧ e.exit_code ≠ 1 ∧
      run_service_wrap e
        = .normalizationError ("Unexpected error during normalization: " ++ e.message)) ∧
    (∀ e, read_json parseJson filepath .permissionDenied = .error e → e.exit_code = 5) ∧
    (∀ text, parseJson text = none →
      read_json parseJson filepath (.content text)
        = .error (.invalidInput ("Malformed JSON in " ++ sqS ++ filepath ++ sqS
            ++ ": invalid syntax")) ∧
      ∀ e, read_json parseJson filepath (.content text) = .error e → e.exit_code = 1) := by
  refine ⟨rfl, fun e h => ?_, fun e h => ?_, fun text hp => ?_⟩
  · cases h
    exact ⟨rfl, by show (5 : Nat) ≠ 1; decide, rfl⟩
  · cases h
    rfl
  · constructor
    · simp [read_json, hp]
    · intro e h
      simp only [read_json, hp] at h
      cases h
      rfl

/-- Witness for `read_json_error_kinds`: a concrete unparsable content. -/
theorem read_json_error_kinds_witness :
    read_json (fun _ => none) "input.json" (.content "not json")
      = .error (.invalidInput ("Malformed JSON in " ++ sqS ++ "input.json" ++ sqS
          ++ ": invalid syntax")) :=
  ((read_json_error_kinds (fun _ => none) "input.json").2.2.2 "not json" rfl).1

/-! ## Claim C5: closed schemas -/

/-- C5's counterexample: `CompatibilityWarning` (and every other adapter
model) subclasses plain `BaseModel`, whose default extra-field policy is
`ignore`, so an input with the unknown key `"bogus"` is accepted rather
than rejected. -/
theorem c5_counterexample : ¬ c5ClaimHolds := by
  intro h
  have := h ⟨"CompatibilityWarning", ["code", "message", "context"], .ignore⟩ (by decide)
      ["code", "message", "bogus"] "bogus" (by decide) (by decide)
  exact absurd this (by decide)

/-- C5 (amended): the canonical document models and the audit envelope
models (`datasets_pdf`, all declaring `extra = "forbid"`) reject every
input carrying an unknown field name; the adapter's intermediate models
use pydantic's default `extra = "ignore"` and silently drop unknown
fields instead. -/
theorem closed_schema_models :
    (∀ m ∈ pdfReadyModelSchemas ++ auditModelSchemas,
      ∀ (keys : List String) (k : String), k ∈ keys → !m.fields.contains k →
        extraKeyRejected m keys = true) ∧
    (∀ m ∈ adapterModelSchemas, m.extra = .ignore) := by
  constructor
  · intro m hm keys k hk hnc
    have hforbid : m.extra = .forbid := by fin_cases hm <;> rfl
    simp only [extraKeyRejected, hforbid, beq_self_eq_true, Bool.true_and, List.any_eq_true]
    exact ⟨k, hk, hnc⟩
  · intro m hm
    fin_cases hm <;> rfl

/-- Witness for `closed_schema_models` at the `Timestamps` model and a
concrete extra key. -/
theorem closed_schema_models_witness :
    extraKeyRejected ⟨"Timestamps", ["created", "updated"], .forbid⟩ ["created", "bogus"] = true :=
  closed_schema_models.1 ⟨"Timestamps", ["created", "updated"], .forbid⟩ (by decide)
    ["created", "bogus"] "bogus" (by decide) (by decide)

/-! ## Claim C8: the audit envelope -/

/-- C8: every audit envelope `_build_audit_envelope` constructs carries
exactly one trace step, named `"normalization"`, with the fixed tool
identity `living-doc-toolkit`/`1.0.0`, identical start and finish
timestamps, the parse-stage compatibility warnings with code, message and
context unchanged and in order; the extensions map holds the preserved
original raw metadata exactly once under the key `"collector-gh"`; and
the producer/run/source descriptors mirror the adapter metadata
verbatim. -/
theorem audit_envelope_spec (now : String) (adapter_result : AdapterResult)
    (env : AuditEnvelopeV1) (h : _build_audit_envelope now adapter_result = .ok env) :
    env.schema_version = "1.0" ∧
    env.trace = [{ step := "normalization", tool := "living-doc-toolkit",
                   tool_version := "1.0.0", started_at := some now, finished_at := some now,
                   warnings := adapter_result.warnings.map
                     (fun w => ⟨w.code, w.message, w.context⟩) }] ∧
    env.extensions
      = [("collector-gh", [("original_metadata",
          adapter_result.metadata.original_metadata)])] ∧
    env.producer = ⟨adapter_result.metadata.producer.name,
                    adapter_result.metadata.producer.version,
                    adapter_result.metadata.producer.build⟩ ∧
    env.run = ⟨adapter_result.metadata.run.run_id, adapter_result.metadata.run.run_attempt,
               adapter_result.metadata.run.actor, adapter_result.metadata.run.workflow,
               adapter_result.metadata.run.ref, adapter_result.metadata.run.sha⟩ ∧
    env.source = ⟨adapter_result.metadata.source.systems,
                  adapter_result.metadata.source.repositories,
                  adapter_result.metadata.source.organization,
                  adapter_result.metadata.source.enterprise⟩ := by
  unfold _build_audit_envelope at h
  cases hp : mkAuditProducer adapter_result.metadata.producer.name
      adapter_result.metadata.producer.version adapter_result.metadata.producer.build with
  | error e =>
      rw [hp] at h
      exact Except.noConfusion h
  | ok producer =>
      rw [hp] at h
      simp only [Except.bind] at h
      cases hs : mkAuditSource adapter_result.metadata.source.systems
          adapter_result.metadata.source.repositories
          adapter_result.metadata.source.organization
          adapter_result.metadata.source.enterprise with
      | error e =>
          rw [hs] at h
          exact Except.noConfusion h
      | ok source =>
          rw [hs] at h
          simp only [Except.bind, mkAuditEnvelopeV1, if_neg (by decide : ¬"1.0" ≠ "1.0")] at h
          cases h
          have hpro : producer = ⟨adapter_result.metadata.producer.name,
              adapter_result.metadata.producer.version,
              adapter_result.metadata.producer.build⟩ := by
            unfold mkAuditProducer at hp
            by_cases hn : (adapter_result.metadata.producer.name = ""
                || pyStrip adapter_result.metadata.producer.name = "") = true
            · rw [if_pos hn] at hp
              exact Except.noConfusion hp
            · rw [if_neg hn] at hp
              cases hp
              rfl
          have hsrc : source = ⟨adapter_result.metadata.source.systems,
              adapter_result.metadata.source.repositories,
              adapter_result.metadata.source.organization,
              adapter_result.metadata.source.enterprise⟩ := by
            unfold mkAuditSource at hs
            by_cases hn : adapter_result.metadata.source.systems.isEmpty = true
            · rw [if_pos hn] at hs
              exact Except.noConfusion hs
            · rw [if_neg hn] at hs
              cases hs
              rfl
          exact ⟨rfl, rfl, rfl, hpro, rfl, hsrc⟩

/-- Witness for `audit_envelope_spec` at a concrete adapter result with a
warning to carry forward. -/
theorem audit_envelope_spec_witness :
    ∃ env, _build_audit_envelope "2026-01-01T00:00:00+00:00"
        { items := [],
          metadata := sampleMetadata ["github:owner/repo"],
          warnings := [⟨"VERSION_MISMATCH", "msg", some "ctx"⟩] } = .ok env ∧
      env.trace = [{ step := "normalization", tool := "living-doc-toolkit",
                     tool_version := "1.0.0",
                     started_at := some "2026-01-01T00:00:00+00:00",
                     finished_at := some "2026-01-01T00:00:00+00:00",
                     warnings := [⟨"VERSION_MISMATCH", "msg", some "ctx"⟩] }] := by
  refine ⟨_, rfl, ?_⟩
  exact (audit_envelope_spec "2026-01-01T00:00:00+00:00"
    { items := [],
      metadata := sampleMetadata ["github:owner/repo"],
      warnings := [⟨"VERSION_MISMATCH", "msg", some "ctx"⟩] } _ rfl).2.1

/-! ## Claim C10: builder override asymmetry -/

theorem exceptBindOk {ε α β : Type} {x : Except ε α} {f : α → Except ε β} {b : β}
    (h : (x >>= f) = .ok b) : ∃ a, x = .ok a ∧ f a = .ok b := by
  cases x with
  | error e => exact Except.noConfusion h
  | ok a => exact ⟨a, rfl, h⟩

theorem mkMeta_empty_version_fails (dt gat : String) (ss : List String)
    (sel : SelectionSummary) (rc : Option RunContext) (au : Option AuditEnvelopeV1)
    (m : Meta) : mkMeta dt "" gat ss sel rc au = .ok m → False := by
  intro h
  unfold mkMeta at h
  split at h
  · exact Except.noConfusion h
  · split at h
    · exact Except.noConfusion h
    · next hfalse => exact absurd (by decide) hfalse

theorem mkMeta_empty_sourceset_fails (dt dv gat : String) (sel : SelectionSummary)
    (rc : Option RunContext) (au : Option AuditEnvelopeV1) (m : Meta) :
    mkMeta dt dv gat [] sel rc au = .ok m → False := by
  intro h
  unfold mkMeta at h
  split at h
  · exact Except.noConfusion h
  · split at h
    · exact Except.noConfusion h
    · split at h
      · exact Except.noConfusion h
      · next hfalse => exact absurd (by decide) hfalse

theorem mkMeta_ok_inv (dt dv gat : String) (ss : List String) (sel : SelectionSummary)
    (rc : Option RunContext) (au : Option AuditEnvelopeV1) (m : Meta)
    (h : mkMeta dt dv gat ss sel rc au = .ok m) : m = ⟨dt, dv, gat, ss, sel, rc, au⟩ := by
  unfold mkMeta at h
  split at h
  · exact Except.noConfusion h
  · split at h
    · exact Except.noConfusion h
    · split at h
      · exact Except.noConfusion h
      · cases h
        rfl

theorem mkPdfReadyV1_ok_inv (sv : String) (meta : Meta) (content : Content) (d : PdfReadyV1)
    (h : mkPdfReadyV1 sv meta content = .ok d) : d = ⟨sv, meta, content⟩ := by
  unfold mkPdfReadyV1 at h
  split at h
  · exact Except.noConfusion h
  · cases h
    rfl

/-- C10: the builder's override handling is asymmetric.  An options
mapping carrying `document_title = ""` behaves exactly like one with the
key absent (the empty title is ignored and a title is synthesized), but
an options mapping carrying `document_version = ""` passes the empty
string into the document metadata, whose length validation then fails, so
no document is ever produced; the `"1.0.0"` default applies only when the
`document_version` key is entirely absent. -/
theorem build_pdf_ready_option_asymmetry (now : String) (adapter_result : AdapterResult)
    (t v : Option String) :
    (build_pdf_ready now adapter_result ⟨some "", v⟩
      = build_pdf_ready now adapter_result ⟨none, v⟩) ∧
    (∀ d, build_pdf_ready now adapter_result ⟨t, some ""⟩ ≠ .ok d) ∧
    (∀ d, build_pdf_ready now adapter_result ⟨t, none⟩ = .ok d →
      d.meta.document_version = "1.0.0") := by
  refine ⟨?_, ?_, ?_⟩
  · have hres : resolve_document_title (some "") = resolve_document_title none := by
      funext s
      simp [resolve_document_title]
    simp only [build_pdf_ready, hres]
  · intro d hd
    simp only [build_pdf_ready] at hd
    obtain ⟨stories, hst, hd⟩ := exceptBindOk hd
    obtain ⟨audit, haud, hd⟩ := exceptBindOk hd
    obtain ⟨meta, hmeta, hd⟩ := exceptBindOk hd
    exact mkMeta_empty_version_fails _ _ _ _ _ _ _ hmeta
  · intro d hd
    simp only [build_pdf_ready] at hd
    obtain ⟨stories, hst, hd⟩ := exceptBindOk hd
    obtain ⟨audit, haud, hd⟩ := exceptBindOk hd
    obtain ⟨meta, hmeta, hd⟩ := exceptBindOk hd
    have hm := mkMeta_ok_inv _ _ _ _ _ _ _ _ hmeta
    have hdmk := mkPdfReadyV1_ok_inv _ _ _ _ hd
    rw [hdmk, hm]
    rfl

/-- Witness for `build_pdf_ready_option_asymmetry` at the sample adapter
result: the empty version override is rejected while the same build with
the key absent succeeds with version `"1.0.0"`. -/
theorem build_pdf_ready_option_asymmetry_witness :
    (build_pdf_ready "T" (sampleResult ["github:owner/repo"]) ⟨some "", none⟩
      = build_pdf_ready "T" (sampleResult ["github:owner/repo"]) ⟨none, none⟩) ∧
    (∀ d, build_pdf_ready "T" (sampleResult ["github:owner/repo"]) ⟨some "T2", some ""⟩
      ≠ .ok d) :=
  ⟨(build_pdf_ready_option_asymmetry "T" (sampleResult ["github:owner/repo"])
      (some "T2") none).1,
   (build_pdf_ready_option_asymmetry "T" (sampleResult ["github:owner/repo"])
      (some "T2") none).2.1⟩

/-! ## Claim C4: zero declared repositories -/

theorem mapErrorOk {ε ε' α : Type} {x : Except ε α} {g : ε → ε'} {a : α}
    (h : x.mapError g = .ok a) : x = .ok a := by
  cases x with
  | error e => simp [Except.mapError] at h
  | ok b => simpa [Except.mapError] using h

theorem asStrList_ok_length : ∀ (xs : List JVal) (l : List String),
    asStrList (.arr xs) = .ok l → l.length = xs.length := by
  intro xs
  induction xs with
  | nil =>
      intro l h
      cases h
      rfl
  | cons x rest ih =>
      intro l h
      simp only [asStrList, List.foldr_cons] at h
      cases hrec : (rest.foldr (fun x acc =>
          match x, acc with
          | .s t, .ok tl => .ok (t :: tl)
          | _, .error e => .error e
          | _, _ => .error (.validationError "Input should be a valid string"))
          (.ok [] : Except PyExc (List String))) with
      | error e =>
          rw [hrec] at h
          cases x <;> exact Except.noConfusion h
      | ok tl =>
          rw [hrec] at h
          cases x with
          | s t =>
              cases h
              have := ih tl hrec
              simp [this]
          | null => exact Except.noConfusion h
          | b v => exact Except.noConfusion h
          | i n => exact Except.noConfusion h
          | arr ys => exact Except.noConfusion h
          | obj fs => exact Except.noConfusion h

theorem asStrList_ok_nil (j : JVal) (h : asStrList j = .ok []) : j = .arr [] := by
  cases j with
  | arr xs =>
      have := asStrList_ok_length xs [] h
      cases xs with
      | nil => rfl
      | cons y ys => simp at this
  | null => exact Except.noConfusion h
  | b v => exact Except.noConfusion h
  | i n => exact Except.noConfusion h
  | s t => exact Except.noConfusion h
  | obj fs => exact Except.noConfusion h

theorem buildItem_ok_id (src issue : JVal) (item : AdapterItem)
    (h : buildItem src issue = .ok item) :
    ∃ n, item.id = "github:" ++ pyStr src ++ "#" ++ pyStr n := by
  unfold buildItem at h
  obtain ⟨num, hnum, h⟩ := exceptBindOk h
  obtain ⟨titleJ, _, h⟩ := exceptBindOk h
  obtain ⟨stateJ, _, h⟩ := exceptBindOk h
  obtain ⟨tagsJ, _, h⟩ := exceptBindOk h
  obtain ⟨urlJ, _, h⟩ := exceptBindOk h
  obtain ⟨createdJ, _, h⟩ := exceptBindOk h
  obtain ⟨updatedJ, _, h⟩ := exceptBindOk h
  obtain ⟨created, _, h⟩ := exceptBindOk h
  obtain ⟨updated, _, h⟩ := exceptBindOk h
  obtain ⟨bodyJ, _, h⟩ := exceptBindOk h
  obtain ⟨title, _, h⟩ := exceptBindOk h
  obtain ⟨state, _, h⟩ := exceptBindOk h
  obtain ⟨tags, _, h⟩ := exceptBindOk h
  obtain ⟨url, _, h⟩ := exceptBindOk h
  obtain ⟨body, _, h⟩ := exceptBindOk h
  cases h
  exact ⟨num, rfl⟩

theorem parseIssue_ok_inv (src issue : JVal) (item : AdapterItem)
    (h : parseIssue src issue = .ok item) : buildItem src issue = .ok item := by
  unfold parseIssue at h
  cases hb : buildItem src issue with
  | ok it =>
      rw [hb] at h
      have h3 : (Except.ok it : Except ParseExc AdapterItem) = .ok item := h
      injection h3 with h4
      rw [← h4]
  | error e =>
      rw [hb] at h
      cases e with
      | keyError k =>
          cases hg : pyGet issue "number" (.s "unknown") with
          | ok nv =>
              rw [hg] at h
              exact Except.noConfusion h
          | error ae =>
              rw [hg] at h
              exact Except.noConfusion h
      | typeError m =>
          cases hg : pyGet issue "number" (.s "unknown") with
          | ok nv =>
              rw [hg] at h
              exact Except.noConfusion h
          | error ae =>
              rw [hg] at h
              exact Except.noConfusion h
      | attributeError m => exact Except.noConfusion h
      | validationError m => exact Except.noConfusion h

theorem parseIssues_ids (repo : String) : ∀ (issues : List JVal) (items : List AdapterItem),
    parseIssues (.s repo) issues = .ok items →
    ∀ item ∈ items, ∃ n, item.id = "github:" ++ repo ++ "#" ++ n := by
  intro issues
  induction issues with
  | nil =>
      intro items h item hmem
      cases h
      simp at hmem
  | cons issue rest ih =>
      intro items h item hmem
      simp only [parseIssues] at h
      obtain ⟨it0, hit0, h⟩ := exceptBindOk h
      obtain ⟨tl, htl, h⟩ := exceptBindOk h
      cases h
      rcases List.mem_cons.mp hmem with rfl | hmem'
      · obtain ⟨num, hid⟩ := buildItem_ok_id _ _ _ (parseIssue_ok_inv _ _ _ hit0)
        exact ⟨pyStr num, hid⟩
      · exact ih tl htl item hmem'

/-- C4, parser half, over arbitrary payloads: whenever `parse` succeeds
with an empty repository list in its metadata, every item id was built
with the fixed fallback repository token. -/
theorem parseCore_zero_repos (payload : JVal) (res : AdapterResult)
    (h : parseCore payload = .ok res) (hrep : res.metadata.source.repositories = []) :
    ∀ item ∈ res.items, ∃ n, item.id = "github:unknown/repo#" ++ n := by
  unfold parseCore at h
  obtain ⟨version, hver, h⟩ := exceptBindOk h
  obtain ⟨warnings, hw, h⟩ := exceptBindOk h
  
  obtain ⟨metadata_dict, hmd, h⟩ := exceptBindOk h
  obtain ⟨generator, hgen, h⟩ := exceptBindOk h
  obtain ⟨run, hrn, h⟩ := exceptBindOk h
  obtain ⟨source, hsrc, h⟩ := exceptBindOk h
  obtain ⟨repositories, hreps, h⟩ := exceptBindOk h
  obtain ⟨source_repo, hsr, h⟩ := exceptBindOk h
  obtain ⟨pnameJ, hx1, h⟩ := exceptBindOk h
  obtain ⟨pversionJ, hx2, h⟩ := exceptBindOk h
  obtain ⟨pbuildJ, hx3, h⟩ := exceptBindOk h
  obtain ⟨producer, hx4, h⟩ := exceptBindOk h
  obtain ⟨runIdJ, hx5, h⟩ := exceptBindOk h
  obtain ⟨runAttJ, hx6, h⟩ := exceptBindOk h
  obtain ⟨actorJ, hx7, h⟩ := exceptBindOk h
  obtain ⟨workflowJ, hx8, h⟩ := exceptBindOk h
  obtain ⟨refJ, hx9, h⟩ := exceptBindOk h
  obtain ⟨shaJ, hx10, h⟩ := exceptBindOk h
  obtain ⟨runRec, hx11, h⟩ := exceptBindOk h
  obtain ⟨systemsJ, hx12, h⟩ := exceptBindOk h
  obtain ⟨orgJ, hx13, h⟩ := exceptBindOk h
  obtain ⟨entJ, hx14, h⟩ := exceptBindOk h
  obtain ⟨sourceRec, hsrec, h⟩ := exceptBindOk h
  obtain ⟨origMeta, hx15, h⟩ := exceptBindOk h
  obtain ⟨issuesJ, hx16, h⟩ := exceptBindOk h
  obtain ⟨issues, hx17, h⟩ := exceptBindOk h
  obtain ⟨items, hitems, h⟩ := exceptBindOk h
  cases h
  obtain ⟨sys, hy1, hsrec'⟩ := exceptBindOk (mapErrorOk hsrec)
  obtain ⟨repos, hrl, hsrec'⟩ := exceptBindOk hsrec'
  obtain ⟨org, hy2, hsrec'⟩ := exceptBindOk hsrec'
  obtain ⟨ent, hy3, hsrec'⟩ := exceptBindOk hsrec'
  cases hsrec'
  have hrep2 : repos = [] := hrep
  rw [hrep2] at hrl
  have hrepnil : repositories = .arr [] := asStrList_ok_nil _ hrl
  rw [hrepnil] at hsr
  have hsr2 : source_repo = .s "unknown/repo" := by
    have h1 := mapErrorOk hsr
    rw [show resolveSourceRepo (JVal.arr []) = .ok (.s "unknown/repo") from rfl] at h1
    cases h1
    rfl
  rw [hsr2] at hitems
  exact fun item hm => parseIssues_ids "unknown/repo" issues items hitems item hm

/-- C4 (amended): with zero declared repositories the parser builds every
item id from the fixed fallback token `unknown/repo`, and the builder's
title fallback does resolve to the fixed generic title
`"Living Documentation"` — but because `source_set` is then empty, the
document metadata fails its non-empty-source-set validation, so
`build_pdf_ready` raises instead of producing a document. -/
theorem zero_repositories_behavior :
    (∀ payload res, parse payload = .ok res → res.metadata.source.repositories = [] →
      ∀ item ∈ res.items, ∃ n, item.id = "github:unknown/repo#" ++ n) ∧
    (resolve_document_title none [] = "Living Documentation") ∧
    (∀ now adapter_result options d, adapter_result.metadata.source.repositories = [] →
      build_pdf_ready now adapter_result options ≠ .ok d) := by
  refine ⟨?_, rfl, ?_⟩
  · intro payload res hp hrep
    have hpc : parseCore payload = .ok res := by
      unfold parse at hp
      cases hc : parseCore payload with
      | ok r =>
          rw [hc] at hp
          cases hp
          rfl
      | error e =>
          rw [hc] at hp
          cases e with
          | adapter m => exact Except.noConfusion hp
          | py pe => exact Except.noConfusion hp
    exact parseCore_zero_repos payload res hpc hrep
  · intro now adapter_result options d hrep hd
    simp only [build_pdf_ready] at hd
    obtain ⟨stories, hst, hd⟩ := exceptBindOk hd
    obtain ⟨audit, haud, hd⟩ := exceptBindOk hd
    obtain ⟨meta, hmeta, hd⟩ := exceptBindOk hd
    rw [hrep] at hmeta
    exact mkMeta_empty_sourceset_fails _ _ _ _ _ _ _ hmeta

/-- C4's counterexample: at a concrete zero-repository adapter result the
builder raises the source-set validation error, so no document titled
`"Living Documentation"` (or any document) is produced. -/
theorem c4_counterexample : ¬ c4ClaimHolds := by
  intro h
  obtain ⟨d, hd, -⟩ := h "T" (sampleResult []) rfl
  rw [show build_pdf_ready "T" (sampleResult []) ⟨none, none⟩
      = .error "source_set must be non-empty" from rfl] at hd
  exact Except.noConfusion hd

/-- Witness for `zero_repositories_behavior`: the repository's own
zero-repository parser test case. -/
theorem zero_repositories_behavior_witness :
    ∃ res, parse (payloadNoRepos [minimalIssue]) = .ok res ∧
      ∀ item ∈ res.items, ∃ n, item.id = "github:unknown/repo#" ++ n := by
  refine ⟨_, rfl, ?_⟩
  exact zero_repositories_behavior.1 (payloadNoRepos [minimalIssue]) _ rfl rfl

/-! ## Claim C6: per-issue parse failures -/

/-- C6 (amended): a raw issue failing with a missing required field (a
`KeyError`, or a `TypeError` from a non-dict issue) aborts the parse with
a structured adapter error naming `issue.get("number", "unknown")`; one
of the required *string* fields (title, state, html_url, created_at,
updated_at) present with the wrong type raises a pydantic
`ValidationError`, which the per-issue handler does not catch, so the
parse aborts with the generic payload-level adapter error that does not
name the issue; a present-but-mistyped `number`, however, is never
validated at all — whatever the value, it is formatted into the item id
and the issue parses successfully.  The parse is all-or-nothing: a
successful parse consumed every issue, and the first failing issue
aborts the whole parse. -/
theorem parse_issue_error_reporting :
    (∀ src fields k, buildItem src (.obj fields) = .error (.keyError k) →
      parseIssue src (.obj fields) = .error (.adapter
        ("Failed to parse issue " ++ pyStr ((dget fields "number").getD (.s "unknown"))
          ++ ": " ++ (sqS ++ k ++ sqS)))) ∧
    (∀ src fields m, buildItem src (.obj fields) = .error (.typeError m) →
      parseIssue src (.obj fields) = .error (.adapter
        ("Failed to parse issue " ++ pyStr ((dget fields "number").getD (.s "unknown"))
          ++ ": " ++ m))) ∧
    (∀ src issue m, buildItem src issue = .error (.validationError m) →
      parseIssue src issue = .error (.py (.validationError m))) ∧
    (∀ src issues items, parseIssues src issues = .ok items →
      items.length = issues.length) ∧
    (∀ src pre issue rest e itemsPre, parseIssues src pre = .ok itemsPre →
      parseIssue src issue = .error e →
      parseIssues src (pre ++ issue :: rest) = .error e) ∧
    (∀ payload m, parseCore payload = .error (.adapter m) → parse payload = .error m) ∧
    (∀ payload pe, parseCore payload = .error (.py pe) →
      parse payload = .error ("Failed to parse collector-gh payload: " ++ excStr pe)) ∧
    (∀ src fields num title state url created updated tags body,
      dget fields "number" = some num →
      dget fields "title" = some (.s title) →
      dget fields "state" = some (.s state) →
      dget fields "html_url" = some (.s url) →
      dget fields "created_at" = some (.s created) →
      dget fields "updated_at" = some (.s updated) →
      asStrList ((dget fields "labels").getD (.arr [])) = .ok tags →
      asOptStr ((dget fields "body").getD .null) = .ok body →
      parseIssue src (.obj fields) = .ok
        { id := "github:" ++ pyStr src ++ "#" ++ pyStr num, title := title, state := state,
          tags := tags, url := url, timestamps := ⟨created, updated⟩, body := body }) ∧
    ((parse (minimalPayload [.s "owner/repo"] [issueStrNumber])).map (·.items.map (·.id))
      = .ok ["github:owner/repo#5"]) := by
  refine ⟨?_, ?_, ?_, ?_, ?_, ?_, ?_, ?_, rfl⟩
  · intro src fields k hb
    unfold parseIssue
    rw [hb]
    exact rfl
  · intro src fields m hb
    unfold parseIssue
    rw [hb]
    exact rfl
  · intro src issue m hb
    unfold parseIssue
    rw [hb]
  · intro src issues
    induction issues with
    | nil =>
        intro items h
        cases h
        rfl
    | cons issue rest ih =>
        intro items h
        simp only [parseIssues] at h
        obtain ⟨it0, hp0, h⟩ := exceptBindOk h
        obtain ⟨tl, htl, h⟩ := exceptBindOk h
        cases h
        simp [ih tl htl]
  · intro src pre
    induction pre with
    | nil =>
        intro issue rest e itemsPre _ hIss
        simp only [List.nil_append, parseIssues]
        rw [hIss]
        rfl
    | cons p pre' ih =>
        intro issue rest e itemsPre hpre hIss
        simp only [parseIssues] at hpre
        obtain ⟨it0, hp0, hpre⟩ := exceptBindOk hpre
        obtain ⟨tl, htl, hpre⟩ := exceptBindOk hpre
        simp only [List.cons_append, parseIssues]
        rw [hp0]
        rw [show parseIssues src (pre'.append (issue :: rest)) = Except.error e
            from ih issue rest e tl htl hIss]
        rfl
  · intro payload m hpc
    unfold parse
    rw [hpc]
  · intro payload pe hpc
    unfold parse
    rw [hpc]
  · intro src fields num title state url created updated tags body h1 h2 h3 h4 h5 h6 h7 h8
    have hb : buildItem src (.obj fields) = .ok
        { id := "github:" ++ pyStr src ++ "#" ++ pyStr num, title := title, state := state,
          tags := tags, url := url, timestamps := ⟨created, updated⟩, body := body } := by
      have e1 : pySubscript (.obj fields) "number" = .ok num := by
        simp [pySubscript, h1]
      have e2 : pySubscript (.obj fields) "title" = .ok (.s title) := by
        simp [pySubscript, h2]
      have e3 : pySubscript (.obj fields) "state" = .ok (.s state) := by
        simp [pySubscript, h3]
      have e4 : pySubscript (.obj fields) "html_url" = .ok (.s url) := by
        simp [pySubscript, h4]
      have e5 : pySubscript (.obj fields) "created_at" = .ok (.s created) := by
        simp [pySubscript, h5]
      have e6 : pySubscript (.obj fields) "updated_at" = .ok (.s updated) := by
        simp [pySubscript, h6]
      have e7 : pyGet (.obj fields) "labels" (.arr [])
          = .ok ((dget fields "labels").getD (.arr [])) := rfl
      have e8 : pyGet (.obj fields) "body" .null
          = .ok ((dget fields "body").getD .null) := rfl
      unfold buildItem
      rw [e1, e2, e3, e4, e5, e6, e7, e8]
      show ((asStrList ((dget fields "labels").getD (.arr [])) >>= fun tg =>
          asOptStr ((dget fields "body").getD .null) >>= fun bd =>
          pure ({ id := "github:" ++ pyStr src ++ "#" ++ pyStr num, title := title,
                  state := state, tags := tg, url := url,
                  timestamps := ⟨created, updated⟩, body := bd } : AdapterItem))
            : Except PyExc AdapterItem)
        = Except.ok ({ id := "github:" ++ pyStr src ++ "#" ++ pyStr num, title := title,
                       state := state, tags := tags, url := url,
                       timestamps := ⟨created, updated⟩, body := body } : AdapterItem)
      rw [h7, h8]
      rfl
    unfold parseIssue
    rw [hb]

/-- C6's counterexample: issue number 1 with the integer `123` as its
`title` (a mistyped required field) aborts the parse with the generic
payload-level message, which does not name the offending issue. -/
theorem c6_counterexample : ¬ c6ClaimHolds := by
  intro h
  have h2 := h (minimalPayload [.s "owner/repo"] [issueIntTitle])
      "Failed to parse collector-gh payload: Input should be a valid string" rfl rfl
  exact absurd h2 (by decide)

/-- Witness for `parse_issue_error_reporting`: the repository's own
missing-`title` test case produces the adapter error naming issue 1. -/
theorem parse_issue_error_reporting_witness :
    parseIssue (.s "owner/repo")
        (.obj [("number", .i 1), ("state", .s "open"), ("labels", .arr [.s "test"]),
               ("html_url", .s "https://github.com/owner/repo/issues/1"),
               ("created_at", .s "2026-01-01T00:00:00Z"),
               ("updated_at", .s "2026-01-02T00:00:00Z"), ("body", .s "Test body")])
      = .error (.adapter ("Failed to parse issue 1: " ++ sqS ++ "title" ++ sqS)) :=
  parse_issue_error_reporting.1 (.s "owner/repo")
    [("number", .i 1), ("state", .s "open"), ("labels", .arr [.s "test"]),
     ("html_url", .s "https://github.com/owner/repo/issues/1"),
     ("created_at", .s "2026-01-01T00:00:00Z"),
     ("updated_at", .s "2026-01-02T00:00:00Z"), ("body", .s "Test body")] "title" rfl
